import Mathlib

/-
Verification development for the coinmetrics-api-client-python repository.

The repository consists of the catalog reshaping module
src/coinmetrics/_catalogs.py and two example exporter scripts under
src/examples/.  The catalog module turns lists of JSON records
(Python dicts) into pandas dataframes through a fixed sequence of
explode / assign / rename / drop / datetime-coercion steps.

Shallow embedding used here:

  * JSON values (and cells of a dataframe) are modelled by the
    inductive type Value.  Python None and pandas NaN/NA are both
    modelled by Value.none, since the code treats them uniformly
    (fillna, dropna, isoparse TypeError).
  * A pandas DataFrame is modelled by DF: an ordered list of column
    names together with rows; every row carries its pandas index
    (a Nat) and an association list from column name to cell value.
    All catalog pipelines construct rows whose key list equals the
    column list.
  * Python exceptions are modelled by Except PyError; the code under
    study raises ValueError (two distinct raise sites), KeyError,
    AttributeError and IndexError, which the PyError constructors
    mirror.
  * dateutil.parser.isoparse is an external dependency of the module;
    it is modelled by the simplified ISO-8601 recognizer isoparse
    below, which keeps the contract the code relies on: a valid ISO
    string parses to a timestamp, a malformed string is a parse error
    (Python ValueError), a non-string input is a type error (Python
    TypeError).
-/

/-- A parsed UTC timestamp as produced by dateutil.parser.isoparse. -/
structure Timestamp where
  year : Nat
  month : Nat
  day : Nat
  hour : Nat
  minute : Nat
  second : Nat
deriving DecidableEq

/-- The Python exceptions raised by the code under study.  The two
ValueError constructors correspond to the two distinct raise sites:
the secondary_level parameter check in _catalogs.py, and the ValueError
raised by dateutil isoparse on a malformed date string. -/
inductive PyError where
  | valueErrorSecondaryLevel
  | valueErrorIsoParse
  | keyError (k : String)
  | attributeError
  | indexError
deriving DecidableEq

/-- A JSON-like value: a catalog record, a record field, or a dataframe
cell.  Value.none models both Python None and pandas NaN/NA. -/
inductive Value where
  | none
  | bool (b : Bool)
  | num (n : Int)
  | str (s : String)
  | time (t : Timestamp)
  | list (xs : List Value)
  | obj (fields : List (String × Value))

/-- Parse a fixed-width run of decimal digits. -/
def parseFixed (n : Nat) (cs : List Char) : Option Nat :=
  if cs.length = n ∧ cs.all Char.isDigit then
    some (cs.foldl (fun a c => a * 10 + (c.toNat - 48)) 0)
  else
    Option.none

/-- Time-of-day part of the ISO-8601 recognizer: HH, HH:MM:SS, with an
optional trailing Z designator. -/
def parseTimePart (y mo d : Nat) (r : List Char) : Option Timestamp :=
  match parseFixed 2 (r.take 2) with
  | Option.none => Option.none
  | some h =>
    if 23 < h then Option.none else
    match r.drop 2 with
    | [] => some ⟨y, mo, d, h, 0, 0⟩
    | ':' :: r1 =>
      match parseFixed 2 (r1.take 2) with
      | Option.none => Option.none
      | some mi =>
        if 59 < mi then Option.none else
        match r1.drop 2 with
        | ':' :: r2 =>
          match parseFixed 2 (r2.take 2) with
          | Option.none => Option.none
          | some se =>
            if 59 < se then Option.none else
            match r2.drop 2 with
            | [] => some ⟨y, mo, d, h, mi, se⟩
            | ['Z'] => some ⟨y, mo, d, h, mi, se⟩
            | _ => Option.none
        | _ => Option.none
    | _ => Option.none

/-- Modelled from the external dependency dateutil.parser.isoparse:
accepts YYYY, YYYY-MM-DD and YYYY-MM-DDTHH[:MM:SS][Z] forms and rejects
everything else.  The code under study only relies on valid ISO strings
parsing and malformed strings raising ValueError. -/
def isoparse (s : String) : Option Timestamp :=
  let cs := s.toList
  match parseFixed 4 (cs.take 4) with
  | Option.none => Option.none
  | some y =>
    match cs.drop 4 with
    | [] => some ⟨y, 1, 1, 0, 0, 0⟩
    | '-' :: r1 =>
      match parseFixed 2 (r1.take 2) with
      | Option.none => Option.none
      | some mo =>
        if mo < 1 ∨ 12 < mo then Option.none else
        match r1.drop 2 with
        | '-' :: r2 =>
          match parseFixed 2 (r2.take 2) with
          | Option.none => Option.none
          | some d =>
            if d < 1 ∨ 31 < d then Option.none else
            match r2.drop 2 with
            | [] => some ⟨y, mo, d, 0, 0, 0⟩
            | 'T' :: r3 => parseTimePart y mo d r3
            | _ => Option.none
        | _ => Option.none
    | _ => Option.none

/-- Keys of a record; non-dict values have no keys. -/
def Value.keys : Value → List String
  | Value.obj fs => fs.map (fun p => p.1)
  | _ => []

/-- Association-list field lookup used by Value.lookup. -/
def lookupFields : List (String × Value) → String → Option Value
  | [], _ => Option.none
  | (k, v) :: fs, key => if k = key then some v else lookupFields fs key

/-- Python subscription r[key] on a dict value; Option.none plays the
role of the KeyError / TypeError outcomes, which the call sites
distinguish as needed. -/
def Value.lookup : Value → String → Option Value
  | Value.obj fs, key => lookupFields fs key
  | _, _ => Option.none

/-- A dataframe row: cells keyed by column name. -/
def Row := List (String × Value)

/-- Cell of a row at a column, pandas NaN (Value.none) when absent. -/
def Row.getV : Row → String → Value
  | [], _ => Value.none
  | (k, v) :: r, key => if k = key then v else Row.getV r key

/-- Overwrite a cell in place, appending a new cell when the column is
not present (pandas column assignment). -/
def Row.setV : Row → String → Value → Row
  | [], key, v => [(key, v)]
  | (k, w) :: r, key, v => if k = key then (key, v) :: r else (k, w) :: Row.setV r key v

/-- Remove all cells of a column (pandas drop of a column label). -/
def Row.dropK : Row → String → Row
  | [], _ => []
  | (k, w) :: r, key => if k = key then Row.dropK r key else (k, w) :: Row.dropK r key

/-- Rename a column label inside a row. -/
def Row.renameK (r : Row) (a b : String) : Row :=
  r.map (fun p => (if p.1 = a then b else p.1, p.2))

/-- Keys of a row in order. -/
def Row.keysOf (r : Row) : List String :=
  r.map (fun p => p.1)

/-- A pandas DataFrame: ordered column labels and indexed rows. -/
structure DF where
  cols : List String
  rows : List (Nat × Row)

/-- Append the keys of one record to an accumulated column list,
keeping first-seen order and dropping duplicates. -/
def addKeys (acc : List String) : List String → List String
  | [] => acc
  | k :: ks => addKeys (if k ∈ acc then acc else acc ++ [k]) ks

def collectColsAux (acc : List String) : List Value → List String
  | [] => acc
  | r :: rs => collectColsAux (addKeys acc r.keys) rs

/-- Columns of pd.DataFrame(list-of-dicts): union of the record keys in
first-appearance order. -/
def collectCols (records : List Value) : List String :=
  collectColsAux [] records

/-- The row a record contributes to pd.DataFrame: one cell per column,
NaN where the record misses the key. -/
def rowOf (cols : List String) (r : Value) : Row :=
  cols.map (fun c => (c, (r.lookup c).getD Value.none))

/-- pd.DataFrame(self) on a list of records, with the default
RangeIndex 0, 1, .... -/
def mkDataFrame (records : List Value) : DF :=
  ⟨collectCols records,
   records.enum.map (fun ir => (ir.1, rowOf (collectCols records) ir.2))⟩

/-- The values of one column, top to bottom. -/
def DF.colVals (df : DF) (c : String) : List Value :=
  df.rows.map (fun ir => Row.getV ir.2 c)

/-- Cell of the dataframe at a column and row position. -/
def DF.cell (df : DF) (c : String) (i : Nat) : Value :=
  Row.getV (df.rows.getD i (0, [])).2 c

/-- List-valued explosion of one cell, as pandas DataFrame.explode
treats it: an empty list becomes a single NaN, a non-empty list becomes
one value per element, a scalar (including NaN) is kept as is. -/
def explodeVals : Value → List Value
  | Value.list [] => [Value.none]
  | Value.list xs => xs
  | v => [v]

/-- pandas DataFrame.explode(column): raises KeyError when the column
is absent; otherwise one output row per exploded value, the index of
the source row being replicated. -/
def DF.explode (df : DF) (c : String) : Except PyError DF :=
  if c ∈ df.cols then
    Except.ok ⟨df.cols, df.rows.flatMap (fun ir =>
      (explodeVals (Row.getV ir.2 c)).map (fun x => (ir.1, Row.setV ir.2 c x)))⟩
  else Except.error (PyError.keyError c)

/-- pandas assign / column assignment with a same-length value list:
overwrites the column when present, else appends it on the right. -/
def DF.assignCol (df : DF) (c : String) (vals : List Value) : DF :=
  ⟨if c ∈ df.cols then df.cols else df.cols ++ [c],
   List.zipWith (fun ir v => (ir.1, Row.setV ir.2 c v)) df.rows vals⟩

/-- pandas fillna({c: v}): replace NaN cells of one column. -/
def DF.fillnaCol (df : DF) (c : String) (v : Value) : DF :=
  ⟨df.cols, df.rows.map (fun ir =>
    match Row.getV ir.2 c with
    | Value.none => (ir.1, Row.setV ir.2 c v)
    | _ => ir)⟩

/-- pandas rename({a: b}, axis=1). -/
def DF.renameCol (df : DF) (a b : String) : DF :=
  ⟨df.cols.map (fun c => if c = a then b else c),
   df.rows.map (fun ir => (ir.1, Row.renameK ir.2 a b))⟩

/-- Remove every occurrence of a label from the column list. -/
def removeAll (l : List String) (c : String) : List String :=
  match l with
  | [] => []
  | x :: xs => if x = c then removeAll xs c else x :: removeAll xs c

/-- pandas drop(c, axis=1, errors="ignore"). -/
def DF.dropIgnore (df : DF) (c : String) : DF :=
  ⟨removeAll df.cols c, df.rows.map (fun ir => (ir.1, Row.dropK ir.2 c))⟩

/-- pandas drop(c, axis=1): KeyError when the column is absent. -/
def DF.dropStrict (df : DF) (c : String) : Except PyError DF :=
  if c ∈ df.cols then Except.ok (df.dropIgnore c)
  else Except.error (PyError.keyError c)

/-- pandas reset_index(drop=True). -/
def DF.resetIndex (df : DF) : DF :=
  ⟨df.cols, df.rows.enum.map (fun ij => (ij.1, ij.2.2))⟩

/-- Error-propagating map over a list (pandas Series.apply where the
applied function may raise). -/
def mapExcept (f : α → Except PyError β) : List α → Except PyError (List β)
  | [] => Except.ok []
  | a :: l =>
    match f a with
    | Except.error e => Except.error e
    | Except.ok b =>
      match mapExcept f l with
      | Except.error e => Except.error e
      | Except.ok bs => Except.ok (b :: bs)

/-- Error-propagating left fold. -/
def foldlExcept (f : β → α → Except PyError β) : β → List α → Except PyError β
  | b, [] => Except.ok b
  | b, a :: l =>
    match f b a with
    | Except.error e => Except.error e
    | Except.ok c => foldlExcept f c l

/-- df[c] = df[c].apply(f) for a fallible f: the first raise aborts
the whole call. -/
def DF.mapCol (df : DF) (c : String) (f : Value → Except PyError Value) : Except PyError DF :=
  match mapExcept (fun ir =>
      match f (Row.getV ir.2 c) with
      | Except.error e => Except.error e
      | Except.ok v => Except.ok (ir.1, Row.setV ir.2 c v)) df.rows with
  | Except.error e => Except.error e
  | Except.ok rows2 => Except.ok ⟨df.cols, rows2⟩

/-- _convert_utc from _catalogs.py: isoparse(x), catching only
TypeError (non-string input) and turning it into None; a malformed
string makes isoparse raise ValueError, which propagates. -/
def convert_utc (x : Value) : Except PyError Value :=
  match x with
  | Value.str s =>
    match isoparse s with
    | some t => Except.ok (Value.time t)
    | Option.none => Except.error PyError.valueErrorIsoParse
  | _ => Except.ok Value.none

/-- The datetime-column predicate of convert_catalog_dtypes:
c.endswith("_time") or c == "time". -/
def timeLike (c : String) : Bool :=
  "_time".toList.isSuffixOf c.toList || c == "time"

/-- convert_catalog_dtypes from _catalogs.py.  df.convert_dtypes() is
a dtype-only change that keeps every cell value, so it is the identity
in this model; then every datetime-named column is passed through
_convert_utc. -/
def convert_catalog_dtypes (df : DF) : Except PyError DF :=
  foldlExcept (fun d c => d.mapCol c convert_utc) df (df.cols.filter timeLike)

/-- _expand_df from _catalogs.py: looks up key in each element,
mapping a KeyError or TypeError (missing key, non-subscriptable row)
to None.  It is total: it never raises. -/
def expand_df (key : String) (iterable : List Value) : List Value :=
  iterable.map (fun row => (row.lookup key).getD Value.none)

/-- str.split("-")[0] applied to a market cell: the substring before
the first dash.  A non-string cell makes Python raise AttributeError
(no .split attribute). -/
def splitDash (v : Value) : Except PyError Value :=
  match v with
  | Value.str s => Except.ok (Value.str (String.mk (s.toList.takeWhile (fun c => c ≠ '-'))))
  | _ => Except.error PyError.attributeError

/-- _assign_metric from the metrics branch of
CatalogAssetsData.to_dataframe: x["metric"], catching only TypeError.
A dict without the key raises KeyError, which propagates. -/
def assignMetric (x : Value) : Except PyError Value :=
  match x with
  | Value.obj fs =>
    match lookupFields fs "metric" with
    | some v => Except.ok v
    | Option.none => Except.error (PyError.keyError "metric")
  | _ => Except.ok Value.none

/-- df.c.to_dict(): AttributeError when the column is absent, else the
index-to-value mapping of the column. -/
def DF.colToDict (df : DF) (c : String) : Except PyError (List (Nat × Value)) :=
  if c ∈ df.cols then
    Except.ok (df.rows.map (fun ir => (ir.1, Row.getV ir.2 c)))
  else Except.error PyError.attributeError

/-- Lookup in an index-to-value dict built by colToDict. -/
def dictGet : List (Nat × Value) → Nat → Value
  | [], _ => Value.none
  | (i, v) :: d, j => if i = j then v else dictGet d j

/-- pandas dropna(subset=[c]): keep the rows whose cell at c is not
NaN. -/
def isNoneV : Value → Bool
  | Value.none => true
  | _ => false

def DF.dropnaRows (df : DF) (c : String) : DF :=
  ⟨df.cols, df.rows.filter (fun ir => !(isNoneV (Row.getV ir.2 c)))⟩

/-- series.apply(pd.Series) on a column of dicts: a new dataframe whose
columns are the union of the dict keys and whose rows keep the source
index.  Non-dict entries contribute no keys and all-NaN cells. -/
def applySeriesDF (entries : List (Nat × Value)) : DF :=
  let cols := collectCols (entries.map (fun iv => iv.2))
  ⟨cols, entries.map (fun iv => (iv.1, rowOf cols iv.2))⟩

/-- Equality of scalar join keys in pandas merge; NaN keys match NaN
(pandas join semantics).  List or dict join keys would make pandas
raise on hashing, so they never match in this model. -/
def scalarKeyEq (a b : Value) : Bool :=
  match a, b with
  | Value.none, Value.none => true
  | Value.bool x, Value.bool y => x == y
  | Value.num x, Value.num y => x == y
  | Value.str x, Value.str y => x == y
  | Value.time x, Value.time y => decide (x = y)
  | _, _ => false

/-- Suffix applied by merge to an overlapping non-key column label. -/
def suffixIfMem (other : List String) (keys : List String) (suf : String) (c : String) : String :=
  if c ∈ other ∧ ¬ c ∈ keys then c ++ suf else c

/-- pandas merge(right, on=keys, how="left"): KeyError when a join key
is missing on either side; overlapping non-key labels get _x and _y
suffixes; every left row is kept, joined with each matching right row,
or with NaN right cells when no right row matches. -/
def DF.merge (left right : DF) (keys : List String) : Except PyError DF :=
  if keys.all (fun k => left.cols.contains k) ∧ keys.all (fun k => right.cols.contains k) then
    let leftCols := left.cols.map (suffixIfMem right.cols keys "_x")
    let rightKeep := right.cols.filter (fun c => !(keys.contains c))
    let rightCols := rightKeep.map (suffixIfMem left.cols keys "_y")
    let renameLeft := fun (r : Row) => r.map (fun p => (suffixIfMem right.cols keys "_x" p.1, p.2))
    Except.ok ⟨leftCols ++ rightCols,
      left.rows.flatMap (fun lr =>
        let matchRows := right.rows.filter (fun rr =>
          keys.all (fun k => scalarKeyEq (Row.getV rr.2 k) (Row.getV lr.2 k)))
        match matchRows with
        | [] => [(lr.1, renameLeft lr.2 ++ rightKeep.map (fun c =>
            (suffixIfMem left.cols keys "_y" c, Value.none)))]
        | _ => matchRows.map (fun rr => (lr.1, renameLeft lr.2 ++ rightKeep.map (fun c =>
            (suffixIfMem left.cols keys "_y" c, Row.getV rr.2 c)))))⟩
  else Except.error (PyError.keyError "merge")

/-- The markets branch of CatalogAssetsData.to_dataframe:
explode("markets").fillna({"markets": ""}).rename markets to market,
assign exchange = market.split("-")[0], drop("exchanges"),
reset_index(drop=True). -/
def CatalogAssetsData.marketsBranch (df0 : DF) : Except PyError DF :=
  match df0.explode "markets" with
  | Except.error e => Except.error e
  | Except.ok df1 =>
    let df2 := df1.fillnaCol "markets" (Value.str "")
    let df3 := df2.renameCol "markets" "market"
    match mapExcept splitDash (df3.colVals "market") with
    | Except.error e => Except.error e
    | Except.ok exchanges =>
      let df4 := df3.assignCol "exchange" exchanges
      match df4.dropStrict "exchanges" with
      | Except.error e => Except.error e
      | Except.ok df5 => Except.ok df5.resetIndex

/-- The metrics branch of CatalogAssetsData.to_dataframe.  The source
builds asset_mapper = df.asset.to_dict(), explodes "metrics"
(the subsequent assign(metrics=pd.Series(x["metrics"])) re-assigns the
same column and is the identity), extracts "metric" with
_assign_metric, builds a per-metric frame from the non-NaN metric
dicts via .apply(pd.Series), maps the surviving index back to assets,
explodes "frequencies" and extracts the seven frequency fields with
_expand_df, drops "frequencies", then left-merges the per-metric frame
back on ["metric", "asset"] and resets the index. -/
def CatalogAssetsData.metricsBranch (df0 : DF) : Except PyError DF :=
  match df0.colToDict "asset" with
  | Except.error e => Except.error e
  | Except.ok asset_mapper =>
    match df0.explode "metrics" with
    | Except.error e => Except.error e
    | Except.ok df1 =>
      match mapExcept assignMetric (df1.colVals "metrics") with
      | Except.error e => Except.error e
      | Except.ok metricVals =>
        let df2 := df1.assignCol "metric" metricVals
        let dfm0 := df2.dropnaRows "metrics"
        let dfm1 := applySeriesDF (dfm0.rows.map (fun ir => (ir.1, Row.getV ir.2 "metrics")))
        let dfm2 := dfm1.assignCol "asset" (dfm1.rows.map (fun ir => dictGet asset_mapper ir.1))
        match dfm2.explode "frequencies" with
        | Except.error e => Except.error e
        | Except.ok dfm3 =>
          let dfm4 := dfm3.assignCol "frequency" (expand_df "frequency" (dfm3.colVals "frequencies"))
          let dfm5 := dfm4.assignCol "min_time" (expand_df "min_time" (dfm4.colVals "frequencies"))
          let dfm6 := dfm5.assignCol "max_time" (expand_df "max_time" (dfm5.colVals "frequencies"))
          let dfm7 := dfm6.assignCol "min_height" (expand_df "min_height" (dfm6.colVals "frequencies"))
          let dfm8 := dfm7.assignCol "max_height" (expand_df "max_height" (dfm7.colVals "frequencies"))
          let dfm9 := dfm8.assignCol "min_hash" (expand_df "min_hash" (dfm8.colVals "frequencies"))
          let dfm10 := dfm9.assignCol "max_hash" (expand_df "max_hash" (dfm9.colVals "frequencies"))
          match dfm10.dropStrict "frequencies" with
          | Except.error e => Except.error e
          | Except.ok dfm11 =>
            match df2.dropStrict "metrics" with
            | Except.error e => Except.error e
            | Except.ok left =>
              match left.merge dfm11 ["metric", "asset"] with
              | Except.error e => Except.error e
              | Except.ok merged => Except.ok merged.resetIndex

/-- CatalogAssetsData.to_dataframe: pd.DataFrame(self), then the
secondary_level switch (None passes through, "markets" and "metrics"
run their branches, anything else raises ValueError), then
convert_catalog_dtypes. -/
def CatalogAssetsData.to_dataframe (self : List Value)
    (secondary_level : Option String := Option.none) : Except PyError DF :=
  let df_assets := mkDataFrame self
  match
    (if secondary_level = Option.none then Except.ok df_assets
     else if secondary_level = some "markets" then CatalogAssetsData.marketsBranch df_assets
     else if secondary_level = some "metrics" then CatalogAssetsData.metricsBranch df_assets
     else Except.error PyError.valueErrorSecondaryLevel) with
  | Except.error e => Except.error e
  | Except.ok df => convert_catalog_dtypes df

/-- CatalogAssetAlertsData.to_dataframe:
convert_catalog_dtypes(pd.DataFrame(self).explode("constituents")). -/
def CatalogAssetAlertsData.to_dataframe (self : List Value) : Except PyError DF :=
  match (mkDataFrame self).explode "constituents" with
  | Except.error e => Except.error e
  | Except.ok df => convert_catalog_dtypes df

/-- The explode("metrics") / extract metric and frequencies /
explode("frequencies") / extract frequency, min_time, max_time /
reset_index / drop(["metrics", "frequencies"]) chain.  This exact
sequence appears verbatim in CatalogAssetPairsData,
CatalogExchangesData (metrics branch), CatalogExchangeAssetsData,
CatalogInstitutionsData and CatalogMarketMetricsData. -/
def metricsFrequenciesChain (df0 : DF) : Except PyError DF :=
  match df0.explode "metrics" with
  | Except.error e => Except.error e
  | Except.ok df1 =>
    let df2 := df1.assignCol "metric" (expand_df "metric" (df1.colVals "metrics"))
    let df3 := df2.assignCol "frequencies" (expand_df "frequencies" (df2.colVals "metrics"))
    match df3.explode "frequencies" with
    | Except.error e => Except.error e
    | Except.ok df4 =>
      let df5 := df4.assignCol "frequency" (expand_df "frequency" (df4.colVals "frequencies"))
      let df6 := df5.assignCol "min_time" (expand_df "min_time" (df5.colVals "frequencies"))
      let df7 := df6.assignCol "max_time" (expand_df "max_time" (df6.colVals "frequencies"))
      let df8 := df7.resetIndex
      match df8.dropStrict "metrics" with
      | Except.error e => Except.error e
      | Except.ok df9 => df9.dropStrict "frequencies"

/-- CatalogAssetPairsData.to_dataframe. -/
def CatalogAssetPairsData.to_dataframe (self : List Value) : Except PyError DF :=
  match metricsFrequenciesChain (mkDataFrame self) with
  | Except.error e => Except.error e
  | Except.ok df => convert_catalog_dtypes df

/-- CatalogExchangesData.to_dataframe: the secondary_level switch with
a pass-through None branch, an explode("markets") + rename markets to
market branch, the shared metrics chain, and a ValueError otherwise. -/
def CatalogExchangesData.to_dataframe (self : List Value)
    (secondary_level : Option String := Option.none) : Except PyError DF :=
  let df_exchanges := mkDataFrame self
  match
    (if secondary_level = Option.none then Except.ok df_exchanges
     else if secondary_level = some "markets" then
       match df_exchanges.explode "markets" with
       | Except.error e => Except.error e
       | Except.ok d => Except.ok (d.renameCol "markets" "market")
     else if secondary_level = some "metrics" then metricsFrequenciesChain df_exchanges
     else Except.error PyError.valueErrorSecondaryLevel) with
  | Except.error e => Except.error e
  | Except.ok df => convert_catalog_dtypes df

/-- CatalogExchangeAssetsData.to_dataframe. -/
def CatalogExchangeAssetsData.to_dataframe (self : List Value) : Except PyError DF :=
  match metricsFrequenciesChain (mkDataFrame self) with
  | Except.error e => Except.error e
  | Except.ok df => convert_catalog_dtypes df

/-- CatalogIndexesData.to_dataframe: explode("frequencies"), extract
frequency, min_time and max_time with _expand_df, reset_index, drop
"frequencies", convert_catalog_dtypes. -/
def CatalogIndexesData.to_dataframe (self : List Value) : Except PyError DF :=
  let df0 := mkDataFrame self
  match df0.explode "frequencies" with
  | Except.error e => Except.error e
  | Except.ok df1 =>
    let df2 := df1.assignCol "frequency" (expand_df "frequency" (df1.colVals "frequencies"))
    let df3 := df2.assignCol "min_time" (expand_df "min_time" (df2.colVals "frequencies"))
    let df4 := df3.assignCol "max_time" (expand_df "max_time" (df3.colVals "frequencies"))
    let df5 := df4.resetIndex
    match df5.dropStrict "frequencies" with
    | Except.error e => Except.error e
    | Except.ok df6 => convert_catalog_dtypes df6

/-- CatalogInstitutionsData.to_dataframe. -/
def CatalogInstitutionsData.to_dataframe (self : List Value) : Except PyError DF :=
  match metricsFrequenciesChain (mkDataFrame self) with
  | Except.error e => Except.error e
  | Except.ok df => convert_catalog_dtypes df

/-- df.join(other, rsuffix): align on the (unique) row index; labels of
the other frame that clash with a label of the left frame get the
suffix. -/
def DF.joinSuffix (df other : DF) (suf : String) : DF :=
  let otherCols := other.cols.map (fun c => if c ∈ df.cols then c ++ suf else c)
  ⟨df.cols ++ otherCols,
   df.rows.map (fun ir =>
     match other.rows.find? (fun jr => jr.1 == ir.1) with
     | some jr => (ir.1, ir.2 ++ (other.cols.map (fun c =>
         (if c ∈ df.cols then c ++ suf else c, Row.getV jr.2 c))))
     | Option.none => (ir.1, ir.2 ++ otherCols.map (fun c => (c, Value.none))))⟩

/-- df[c].apply(pd.Series).drop(0, axis=1, errors="ignore") followed by
a join with rsuffix, as CatalogMarketsData does for "trades" and the
optional metadata columns.  The dropped integer label 0 would only
appear for non-dict cells, which produce no string-labelled columns in
this model, so the drop is a no-op here. -/
def DF.joinSubfields (df : DF) (c : String) (suf : String) : Except PyError DF :=
  if c ∈ df.cols then
    Except.ok (df.joinSuffix (applySeriesDF (df.rows.map (fun ir => (ir.1, Row.getV ir.2 c)))) suf)
  else Except.error (PyError.keyError c)

/-- CatalogMarketsData.to_dataframe: join the exploded "trades"
sub-fields, then those of each metadata column that is present, then
drop the four container columns with errors="ignore" and coerce
dtypes. -/
def CatalogMarketsData.to_dataframe (self : List Value) : Except PyError DF :=
  let df0 := mkDataFrame self
  match df0.joinSubfields "trades" "_trades" with
  | Except.error e => Except.error e
  | Except.ok df1 =>
    let metadata := ["funding_rates", "openinterest", "liquidations"]
    let df2 := metadata.foldl (fun d col =>
      if col ∈ d.cols then
        match d.joinSubfields col ("_" ++ col) with
        | Except.error _ => d
        | Except.ok d2 => d2
      else d) df1
    let df3 := (((df2.dropIgnore "trades").dropIgnore "funding_rates").dropIgnore
        "openinterest").dropIgnore "liquidations"
    convert_catalog_dtypes df3

/-- CatalogMetricsData.to_dataframe: explode("frequencies"), extract
frequency and the per-frequency assets list, explode("asset"), drop
"frequencies", reset_index, convert_catalog_dtypes. -/
def CatalogMetricsData.to_dataframe (self : List Value) : Except PyError DF :=
  let df0 := mkDataFrame self
  match df0.explode "frequencies" with
  | Except.error e => Except.error e
  | Except.ok df1 =>
    let df2 := df1.assignCol "frequency" (expand_df "frequency" (df1.colVals "frequencies"))
    let df3 := df2.assignCol "asset" (expand_df "assets" (df2.colVals "frequencies"))
    match df3.explode "asset" with
    | Except.error e => Except.error e
    | Except.ok df4 =>
      match df4.dropStrict "frequencies" with
      | Except.error e => Except.error e
      | Except.ok df5 => convert_catalog_dtypes df5.resetIndex

/-- CatalogMarketMetricsData.to_dataframe. -/
def CatalogMarketMetricsData.to_dataframe (self : List Value) : Except PyError DF :=
  match metricsFrequenciesChain (mkDataFrame self) with
  | Except.error e => Except.error e
  | Except.ok df => convert_catalog_dtypes df

/-- CatalogMarketCandlesData.to_dataframe: same shape as the indexes
pipeline. -/
def CatalogMarketCandlesData.to_dataframe (self : List Value) : Except PyError DF :=
  let df0 := mkDataFrame self
  match df0.explode "frequencies" with
  | Except.error e => Except.error e
  | Except.ok df1 =>
    let df2 := df1.assignCol "frequency" (expand_df "frequency" (df1.colVals "frequencies"))
    let df3 := df2.assignCol "min_time" (expand_df "min_time" (df2.colVals "frequencies"))
    let df4 := df3.assignCol "max_time" (expand_df "max_time" (df3.colVals "frequencies"))
    let df5 := df4.resetIndex
    match df5.dropStrict "frequencies" with
    | Except.error e => Except.error e
    | Except.ok df6 => convert_catalog_dtypes df6

/-- sys.argv[i]: IndexError when the argument vector is too short. -/
def argvGet (argv : List String) (i : Nat) : Except PyError String :=
  match argv.get? i with
  | some a => Except.ok a
  | Option.none => Except.error PyError.indexError

/-- The api_key expression shared verbatim by both example exporters:
environ.get("CM_API_KEY") or sys.argv[1].  Python or evaluates
sys.argv[1] exactly when the environment value is falsy, i.e. unset
(None) or the empty string. -/
def apiKeyExpr (cmApiKey : Option String) (argv : List String) : Except PyError String :=
  match cmApiKey with
  | some v => if v = "" then argvGet argv 1 else Except.ok v
  | Option.none => argvGet argv 1

/-- api_key of examples/asset_metrics/reference_rates_json_exporter.py. -/
def ReferenceRatesExporter.api_key (cmApiKey : Option String) (argv : List String) :
    Except PyError String :=
  apiKeyExpr cmApiKey argv

/-- api_key of examples/exchange_metrics/exchange_metrics_json_exporter.py. -/
def ExchangeMetricsExporter.api_key (cmApiKey : Option String) (argv : List String) :
    Except PyError String :=
  apiKeyExpr cmApiKey argv

/-- processes_count, the local constant of export_data in the
reference-rates exporter. -/
def ReferenceRatesExporter.processes_count : Nat := 2

/-- Observable effects of export_data in the reference-rates exporter:
the size of the worker pool it creates, whether the warning branch
guarded by processes_count > 2 runs, and the per-asset tasks submitted
to the pool (apply_async of export_asset_data once per asset, in
iteration order). -/
structure PoolPlan where
  poolSize : Nat
  warnedTooManyProcesses : Bool
  tasks : List String
deriving DecidableEq

/-- export_data of the reference-rates exporter, as the pool plan it
realizes for a given iteration order of ASSETS_TO_EXPORT. -/
def ReferenceRatesExporter.export_data (assetsToExport : List String) : PoolPlan :=
  { poolSize := ReferenceRatesExporter.processes_count
  , warnedTooManyProcesses := decide (ReferenceRatesExporter.processes_count > 2)
  , tasks := assetsToExport }

/-- How many rows the claim C1 sentence predicts: one per
(record, frequency entry) pair. -/
def claimedPairCount (records : List Value) : Nat :=
  (records.map (fun r =>
    match r.lookup "frequencies" with
    | some (Value.list xs) => xs.length
    | _ => 0)).sum

/-- Row count of a to_dataframe outcome. -/
def rowCountOf : Except PyError DF → Option Nat
  | Except.ok df => some df.rows.length
  | Except.error _ => Option.none

/-- The exploded frequency entries of a record list: the entries of
each frequencies list, a record with an empty list contributing a
single absent entry, as pandas explode does. -/
def freqEntriesOf (r : Value) : List Value :=
  match r.lookup "frequencies" with
  | some (Value.list (x :: xs)) => x :: xs
  | _ => [Value.none]

def freqEntries (records : List Value) : List Value :=
  records.flatMap freqEntriesOf

/-- The timestamp view of one time field of a frequency entry: the
parse of a string field, absent otherwise. -/
def parsedTime (e : Value) (k : String) : Value :=
  match e.lookup k with
  | some (Value.str s) =>
    match isoparse s with
    | some t => Value.time t
    | Option.none => Value.none
  | _ => Value.none

/-- The market strings of the exploded markets column of a record
list: each element of a non-empty markets list, one empty string for a
missing or empty markets field. -/
def marketStrsOf (r : Value) : List String :=
  match r.lookup "markets" with
  | some (Value.list (x :: xs)) => (x :: xs).map (fun v =>
      match v with
      | Value.str s => s
      | _ => "")
  | _ => [""]

def marketStrs (records : List Value) : List String :=
  records.flatMap marketStrsOf

/-- Hypothesis checker for claim C1: the record carries a frequencies
list whose entries have parseable (or absent, or non-string) min_time
and max_time fields. -/
def timeFieldOk (e : Value) (k : String) : Bool :=
  match e.lookup k with
  | some (Value.str s) => (isoparse s).isSome
  | _ => true

def freqFieldOk (r : Value) : Bool :=
  match r.lookup "frequencies" with
  | some (Value.list fs) => fs.all (fun e => timeFieldOk e "min_time" && timeFieldOk e "max_time")
  | _ => false

/-- Hypothesis checker for claim C1: no record key is datetime-named
or collides with the assigned frequency column. -/
def keysOkC1 (r : Value) : Bool :=
  r.keys.all (fun k => !timeLike k && k != "frequency")

/-- Hypothesis checker for claim C6: the markets field, when present,
is a list of strings. -/
def marketsFieldOk (r : Value) : Bool :=
  match r.lookup "markets" with
  | Option.none => true
  | some (Value.list xs) => xs.all (fun x =>
      match x with
      | Value.str _ => true
      | _ => false)
  | some _ => false

/-- Hypothesis checker for claim C6: no record key is datetime-named
or collides with the market and exchange columns built by the
pipeline. -/
def keysOkC6 (r : Value) : Bool :=
  r.keys.all (fun k => !timeLike k && k != "market" && k != "exchange")

/-- Receiver-threading forms of the to_dataframe methods: each method
body only reads self (pd.DataFrame(self) copies the records into a
fresh frame) and never assigns to self, deletes from it, or calls a
mutating list method on it, so the receiver after the call is the
receiver before it, whatever the outcome, including the ValueError
paths. -/
def CatalogAssetsData.to_dataframe_run (self : List Value) (secondary_level : Option String) :
    Except PyError DF × List Value :=
  (CatalogAssetsData.to_dataframe self secondary_level, self)

def CatalogAssetAlertsData.to_dataframe_run (self : List Value) :
    Except PyError DF × List Value :=
  (CatalogAssetAlertsData.to_dataframe self, self)

def CatalogAssetPairsData.to_dataframe_run (self : List Value) :
    Except PyError DF × List Value :=
  (CatalogAssetPairsData.to_dataframe self, self)

def CatalogExchangesData.to_dataframe_run (self : List Value) (secondary_level : Option String) :
    Except PyError DF × List Value :=
  (CatalogExchangesData.to_dataframe self secondary_level, self)

def CatalogExchangeAssetsData.to_dataframe_run (self : List Value) :
    Except PyError DF × List Value :=
  (CatalogExchangeAssetsData.to_dataframe self, self)

def CatalogIndexesData.to_dataframe_run (self : List Value) :
    Except PyError DF × List Value :=
  (CatalogIndexesData.to_dataframe self, self)

def CatalogInstitutionsData.to_dataframe_run (self : List Value) :
    Except PyError DF × List Value :=
  (CatalogInstitutionsData.to_dataframe self, self)

def CatalogMarketsData.to_dataframe_run (self : List Value) :
    Except PyError DF × List Value :=
  (CatalogMarketsData.to_dataframe self, self)

def CatalogMetricsData.to_dataframe_run (self : List Value) :
    Except PyError DF × List Value :=
  (CatalogMetricsData.to_dataframe self, self)

def CatalogMarketMetricsData.to_dataframe_run (self : List Value) :
    Except PyError DF × List Value :=
  (CatalogMarketMetricsData.to_dataframe self, self)

def CatalogMarketCandlesData.to_dataframe_run (self : List Value) :
    Except PyError DF × List Value :=
  (CatalogMarketCandlesData.to_dataframe self, self)

theorem zipWith_map_self (f : α → β → γ) (g : α → β) (l : List α) :
    List.zipWith f l (l.map g) = l.map (fun a => f a (g a)) := by
  induction l with
  | nil => rfl
  | cons a l ih => simp [ih]

theorem mapFlatMap (g : β → γ) (f : α → List β) (l : List α) :
    (l.flatMap f).map g = l.flatMap (fun a => (f a).map g) := by
  induction l with
  | nil => rfl
  | cons a l ih => simp [ih]

theorem flatMap_congr_mem {f g : α → List β} (l : List α)
    (h : ∀ a ∈ l, f a = g a) : l.flatMap f = l.flatMap g := by
  induction l with
  | nil => rfl
  | cons a l ih =>
    simp only [List.flatMap_cons]
    rw [h a (List.mem_cons_self a l), ih (fun x hx => h x (List.mem_cons_of_mem a hx))]

theorem enumFrom_flatMap_snd (g : α → List β) (n : Nat) (l : List α) :
    (l.enumFrom n).flatMap (fun p => g p.2) = l.flatMap g := by
  induction l generalizing n with
  | nil => rfl
  | cons a l ih => simp [List.enumFrom, ih]

theorem enum_flatMap_snd (g : α → List β) (l : List α) :
    l.enum.flatMap (fun p => g p.2) = l.flatMap g :=
  enumFrom_flatMap_snd g 0 l

theorem enumFrom_map_snd (g : α → β) (n : Nat) (l : List α) :
    (l.enumFrom n).map (fun p => g p.2) = l.map g := by
  induction l generalizing n with
  | nil => rfl
  | cons a l ih => simp [List.enumFrom, ih]

theorem filter_eq_nil_of_false {p : α → Bool} {l : List α}
    (h : ∀ a ∈ l, p a = false) : l.filter p = [] := by
  induction l with
  | nil => rfl
  | cons a l ih =>
    simp [List.filter, h a (List.mem_cons_self a l),
      ih (fun x hx => h x (List.mem_cons_of_mem a hx))]

theorem Row.getV_setV_self (r : Row) (k : String) (v : Value) :
    Row.getV (Row.setV r k v) k = v := by
  induction r with
  | nil => simp [Row.setV, Row.getV]
  | cons p r ih =>
    obtain ⟨k2, w⟩ := p
    by_cases h : k2 = k
    · simp [Row.setV, h, Row.getV]
    · simp [Row.setV, h, Row.getV, ih]

theorem Row.getV_setV_ne (r : Row) (k k2 : String) (v : Value) (h : k2 ≠ k) :
    Row.getV (Row.setV r k v) k2 = Row.getV r k2 := by
  induction r with
  | nil =>
    simp only [Row.setV, Row.getV]
    rw [if_neg (fun hh => h hh.symm)]
  | cons p r ih =>
    obtain ⟨k3, w⟩ := p
    by_cases h3 : k3 = k
    · subst h3
      simp only [Row.setV, if_pos rfl, Row.getV]
      rw [if_neg (fun hh => h hh.symm), if_neg (fun hh => h hh.symm)]
    · simp only [Row.setV, if_neg h3, Row.getV]
      by_cases h4 : k3 = k2
      · rw [if_pos h4, if_pos h4]
      · rw [if_neg h4, if_neg h4]
        exact ih

theorem Row.getV_dropK_ne (r : Row) (k k2 : String) (h : k2 ≠ k) :
    Row.getV (Row.dropK r k) k2 = Row.getV r k2 := by
  induction r with
  | nil => simp [Row.dropK]
  | cons p r ih =>
    obtain ⟨k3, w⟩ := p
    by_cases h3 : k3 = k
    · have e1 : Row.dropK ((k3, w) :: r) k = Row.dropK r k := by simp [Row.dropK, if_pos h3]
      have e2 : Row.getV ((k3, w) :: r) k2 = Row.getV r k2 := by
        simp only [Row.getV]
        rw [if_neg (fun hh => h (hh.symm.trans h3))]
      rw [e1, e2]
      exact ih
    · have e1 : Row.dropK ((k3, w) :: r) k = (k3, w) :: Row.dropK r k := by
        simp [Row.dropK, if_neg h3]
      rw [e1]
      simp only [Row.getV]
      by_cases h4 : k3 = k2
      · rw [if_pos h4, if_pos h4]
      · rw [if_neg h4, if_neg h4]
        exact ih

theorem Row.keysOf_setV_mem (r : Row) (k : String) (v : Value) (h : k ∈ Row.keysOf r) :
    Row.keysOf (Row.setV r k v) = Row.keysOf r := by
  induction r with
  | nil => simp [Row.keysOf] at h
  | cons p r ih =>
    obtain ⟨k3, w⟩ := p
    by_cases h3 : k3 = k
    · simp [Row.setV, h3, Row.keysOf]
    · simp only [Row.keysOf, List.map_cons, List.mem_cons] at h
      rcases h with h | h
      · exact absurd h.symm h3
      · have h2 := ih (by simpa [Row.keysOf] using h)
        simp only [Row.setV, if_neg h3, Row.keysOf, List.map_cons]
        simp only [Row.keysOf] at h2
        rw [h2]

theorem Row.getV_renameK_to (r : Row) (a b : String) (hb : b ∉ Row.keysOf r) :
    Row.getV (Row.renameK r a b) b = Row.getV r a := by
  induction r with
  | nil => simp [Row.renameK, Row.getV]
  | cons p r ih =>
    obtain ⟨k3, w⟩ := p
    simp only [Row.keysOf, List.map_cons, List.mem_cons, not_or] at hb
    by_cases h3 : k3 = a
    · have e1 : Row.renameK ((k3, w) :: r) a b = (b, w) :: Row.renameK r a b := by
        simp [Row.renameK, if_pos h3]
      rw [e1]
      simp only [Row.getV]
      simp [h3]
    · have e1 : Row.renameK ((k3, w) :: r) a b = (k3, w) :: Row.renameK r a b := by
        simp [Row.renameK, if_neg h3]
      rw [e1]
      simp only [Row.getV]
      rw [if_neg (fun hh => hb.1 hh.symm), if_neg h3]
      exact ih hb.2

theorem Row.getV_renameK_other (r : Row) (a b c : String) (ha : c ≠ a) (hb : c ≠ b) :
    Row.getV (Row.renameK r a b) c = Row.getV r c := by
  induction r with
  | nil => simp [Row.renameK, Row.getV]
  | cons p r ih =>
    obtain ⟨k3, w⟩ := p
    by_cases h3 : k3 = a
    · have e1 : Row.renameK ((k3, w) :: r) a b = (b, w) :: Row.renameK r a b := by
        simp [Row.renameK, if_pos h3]
      rw [e1]
      simp only [Row.getV]
      rw [if_neg (fun hh => hb hh.symm), if_neg (fun hh => ha (hh.symm.trans h3))]
      exact ih
    · have e1 : Row.renameK ((k3, w) :: r) a b = (k3, w) :: Row.renameK r a b := by
        simp [Row.renameK, if_neg h3]
      rw [e1]
      simp only [Row.getV]
      by_cases h4 : k3 = c
      · rw [if_pos h4, if_pos h4]
      · rw [if_neg h4, if_neg h4]
        exact ih

theorem Row.getV_rowOf_mem (cols : List String) (r : Value) (c : String) (h : c ∈ cols) :
    Row.getV (rowOf cols r) c = (r.lookup c).getD Value.none := by
  induction cols with
  | nil => simp at h
  | cons c0 cols ih =>
    by_cases h0 : c0 = c
    · simp [rowOf, Row.getV, h0]
    · rcases List.mem_cons.mp h with h1 | h1
      · exact absurd h1.symm h0
      · simp only [rowOf, List.map_cons, Row.getV, if_neg h0]
        exact ih h1

theorem Row.keysOf_rowOf (cols : List String) (r : Value) :
    Row.keysOf (rowOf cols r) = cols := by
  induction cols with
  | nil => rfl
  | cons c cols ih =>
    simp only [rowOf, List.map_cons, Row.keysOf] at ih ⊢
    simp [ih]

theorem mem_addKeys_left {acc : List String} {k : String} (ks : List String)
    (h : k ∈ acc) : k ∈ addKeys acc ks := by
  induction ks generalizing acc with
  | nil => exact h
  | cons k2 ks ih =>
    simp only [addKeys]
    by_cases h2 : k2 ∈ acc
    · rw [if_pos h2]; exact ih h
    · rw [if_neg h2]; exact ih (List.mem_append_left _ h)

theorem mem_addKeys_right {k : String} (acc ks : List String) (h : k ∈ ks) :
    k ∈ addKeys acc ks := by
  induction ks generalizing acc with
  | nil => simp at h
  | cons k2 ks ih =>
    rcases List.mem_cons.mp h with rfl | h2
    · simp only [addKeys]
      by_cases h2 : k ∈ acc
      · rw [if_pos h2]; exact mem_addKeys_left ks h2
      · rw [if_neg h2]
        exact mem_addKeys_left ks (List.mem_append_right _ (List.mem_singleton.mpr rfl))
    · simp only [addKeys]
      exact ih _ h2

theorem mem_addKeys_cases {k : String} (acc ks : List String) (h : k ∈ addKeys acc ks) :
    k ∈ acc ∨ k ∈ ks := by
  induction ks generalizing acc with
  | nil => exact Or.inl h
  | cons k2 ks ih =>
    simp only [addKeys] at h
    by_cases h2 : k2 ∈ acc
    · rw [if_pos h2] at h
      rcases ih _ h with h3 | h3
      · exact Or.inl h3
      · exact Or.inr (List.mem_cons_of_mem _ h3)
    · rw [if_neg h2] at h
      rcases ih _ h with h3 | h3
      · rcases List.mem_append.mp h3 with h4 | h4
        · exact Or.inl h4
        · exact Or.inr (List.mem_cons.mpr (Or.inl (List.mem_singleton.mp h4)))
      · exact Or.inr (List.mem_cons_of_mem _ h3)

theorem mem_collectColsAux_left {k : String} {acc : List String} (records : List Value)
    (h : k ∈ acc) : k ∈ collectColsAux acc records := by
  induction records generalizing acc with
  | nil => exact h
  | cons r rs ih => exact ih (mem_addKeys_left _ h)

theorem mem_collectColsAux_of {k : String} (acc : List String) {records : List Value}
    {r : Value} (hr : r ∈ records) (h : k ∈ r.keys) : k ∈ collectColsAux acc records := by
  induction records generalizing acc with
  | nil => simp at hr
  | cons r2 rs ih =>
    rcases List.mem_cons.mp hr with rfl | h2
    · exact mem_collectColsAux_left rs (mem_addKeys_right _ _ h)
    · exact ih (addKeys acc r2.keys) h2

theorem mem_collectCols_of {k : String} {records : List Value} {r : Value}
    (hr : r ∈ records) (h : k ∈ r.keys) : k ∈ collectCols records :=
  mem_collectColsAux_of [] hr h

theorem mem_collectColsAux_cases {k : String} (acc : List String) (records : List Value)
    (h : k ∈ collectColsAux acc records) : k ∈ acc ∨ ∃ r ∈ records, k ∈ r.keys := by
  induction records generalizing acc with
  | nil => exact Or.inl h
  | cons r rs ih =>
    rcases ih _ h with h2 | ⟨r2, hr2, hk2⟩
    · rcases mem_addKeys_cases _ _ h2 with h3 | h3
      · exact Or.inl h3
      · exact Or.inr ⟨r, List.mem_cons_self r rs, h3⟩
    · exact Or.inr ⟨r2, List.mem_cons_of_mem _ hr2, hk2⟩

theorem mem_collectCols_cases {k : String} {records : List Value}
    (h : k ∈ collectCols records) : ∃ r ∈ records, k ∈ r.keys := by
  rcases mem_collectColsAux_cases [] records h with h2 | h2
  · simp at h2
  · exact h2

theorem mapExcept_ok_of {f : α → Except PyError β} (g : α → β) (l : List α)
    (h : ∀ a ∈ l, f a = Except.ok (g a)) : mapExcept f l = Except.ok (l.map g) := by
  induction l with
  | nil => rfl
  | cons a l ih =>
    simp only [mapExcept, h a (List.mem_cons_self a l),
      ih (fun x hx => h x (List.mem_cons_of_mem a hx)), List.map_cons]

theorem mapExcept_ne_error {f : α → Except PyError β} {e : PyError}
    (h : ∀ a, f a ≠ Except.error e) (l : List α) : mapExcept f l ≠ Except.error e := by
  induction l with
  | nil => simp [mapExcept]
  | cons a l ih =>
    simp only [mapExcept]
    cases hfa : f a with
    | error e2 =>
      intro hc
      exact h a (hfa.trans (congrArg Except.error (Except.error.inj hc)))
    | ok b =>
      cases hml : mapExcept f l with
      | error e2 =>
        intro hc
        exact ih (hml.trans (congrArg Except.error (Except.error.inj hc)))
      | ok bs => simp

theorem mapExcept_forall2 {f : α → Except PyError β} : ∀ {l : List α} {l2 : List β},
    mapExcept f l = Except.ok l2 → List.Forall₂ (fun a b => f a = Except.ok b) l l2 := by
  intro l
  induction l with
  | nil =>
    intro l2 h
    simp only [mapExcept] at h
    cases h
    exact List.Forall₂.nil
  | cons a l ih =>
    intro l2 h
    simp only [mapExcept] at h
    cases hfa : f a with
    | error e => rw [hfa] at h; cases h
    | ok b =>
      rw [hfa] at h
      cases hml : mapExcept f l with
      | error e => rw [hml] at h; cases h
      | ok bs =>
        rw [hml] at h
        cases h
        exact List.Forall₂.cons hfa (ih hml)

theorem foldlExcept_ne_error {f : β → α → Except PyError β} {e : PyError}
    (h : ∀ b a, f b a ≠ Except.error e) : ∀ (l : List α) (b : β),
    foldlExcept f b l ≠ Except.error e := by
  intro l
  induction l with
  | nil => intro b; simp [foldlExcept]
  | cons a l ih =>
    intro b
    simp only [foldlExcept]
    cases hfa : f b a with
    | error e2 =>
      intro hc
      exact h b a (hfa.trans (congrArg Except.error (Except.error.inj hc)))
    | ok b2 => exact ih b2

theorem map_congr_mem {f g : α → β} {l : List α} (h : ∀ a ∈ l, f a = g a) :
    l.map f = l.map g := by
  induction l with
  | nil => rfl
  | cons a l ih =>
    simp only [List.map_cons]
    rw [h a (List.mem_cons_self a l), ih (fun x hx => h x (List.mem_cons_of_mem a hx))]

theorem mkDataFrame_cols (records : List Value) :
    (mkDataFrame records).cols = collectCols records := rfl

theorem colVals_mkDataFrame {records : List Value} {c : String}
    (h : c ∈ collectCols records) :
    (mkDataFrame records).colVals c = records.map (fun r => (r.lookup c).getD Value.none) := by
  simp only [DF.colVals, mkDataFrame, List.map_map]
  have e1 := enumFrom_map_snd (fun r => Row.getV (rowOf (collectCols records) r) c) 0 records
  simp only [List.enum] at e1 ⊢
  rw [show ((fun ir => Row.getV ir.2 c) ∘ fun ir : Nat × Value =>
      (ir.1, rowOf (collectCols records) ir.2)) =
      (fun p : Nat × Value => Row.getV (rowOf (collectCols records) p.2) c) from rfl, e1]
  exact map_congr_mem (fun r hr => Row.getV_rowOf_mem _ _ _ h)

theorem explode_ok {df : DF} {c : String} (h : c ∈ df.cols) :
    df.explode c = Except.ok ⟨df.cols, df.rows.flatMap (fun ir =>
      (explodeVals (Row.getV ir.2 c)).map (fun x => (ir.1, Row.setV ir.2 c x)))⟩ := by
  simp [DF.explode, h]

theorem assignCol_rows_map (df : DF) (c : String) (h0 : Nat × Row → Value) :
    (df.assignCol c (df.rows.map h0)).rows =
      df.rows.map (fun ir => (ir.1, Row.setV ir.2 c (h0 ir))) := by
  simp only [DF.assignCol]
  exact zipWith_map_self _ _ _

theorem assignCol_cols_notMem {df : DF} {c : String} (h : c ∉ df.cols) (vals : List Value) :
    (df.assignCol c vals).cols = df.cols ++ [c] := by
  simp [DF.assignCol, h]

theorem dropStrict_ok {df : DF} {c : String} (h : c ∈ df.cols) :
    df.dropStrict c = Except.ok (df.dropIgnore c) := by
  simp [DF.dropStrict, h]

theorem resetIndex_rowVals (df : DF) (g : Row → α) :
    df.resetIndex.rows.map (fun ir => g ir.2) = df.rows.map (fun ir => g ir.2) := by
  simp only [DF.resetIndex, List.map_map]
  have e1 := enumFrom_map_snd (fun ir : Nat × Row => g ir.2) 0 df.rows
  simp only [List.enum] at e1 ⊢
  exact e1

theorem resetIndex_cols (df : DF) : df.resetIndex.cols = df.cols := rfl

theorem resetIndex_rows_length (df : DF) : df.resetIndex.rows.length = df.rows.length := by
  simp [DF.resetIndex]

theorem mapCol_ok_of {df : DF} {c : String} {f : Value → Except PyError Value}
    (g : Value → Value)
    (h : ∀ ir ∈ df.rows, f (Row.getV ir.2 c) = Except.ok (g (Row.getV ir.2 c))) :
    df.mapCol c f = Except.ok ⟨df.cols,
      df.rows.map (fun ir => (ir.1, Row.setV ir.2 c (g (Row.getV ir.2 c))))⟩ := by
  simp only [DF.mapCol]
  rw [mapExcept_ok_of (fun ir => (ir.1, Row.setV ir.2 c (g (Row.getV ir.2 c)))) df.rows
    (fun a ha => by rw [h a ha])]

theorem mem_removeAll {k c : String} {l : List String} :
    k ∈ removeAll l c ↔ k ∈ l ∧ k ≠ c := by
  induction l with
  | nil => simp [removeAll]
  | cons x xs ih =>
    by_cases hx : x = c
    · rw [show removeAll (x :: xs) c = removeAll xs c from by simp [removeAll, hx]]
      rw [ih]
      subst hx
      constructor
      · rintro ⟨h1, h2⟩
        exact ⟨List.mem_cons_of_mem _ h1, h2⟩
      · rintro ⟨h1, h2⟩
        rcases List.mem_cons.mp h1 with rfl | h1
        · exact absurd rfl h2
        · exact ⟨h1, h2⟩
    · rw [show removeAll (x :: xs) c = x :: removeAll xs c from by simp [removeAll, hx]]
      constructor
      · intro h1
        rcases List.mem_cons.mp h1 with rfl | h1
        · exact ⟨List.mem_cons_self _ _, hx⟩
        · obtain ⟨h2, h3⟩ := ih.mp h1
          exact ⟨List.mem_cons_of_mem _ h2, h3⟩
      · rintro ⟨h1, h2⟩
        rcases List.mem_cons.mp h1 with rfl | h1
        · exact List.mem_cons_self _ _
        · exact List.mem_cons_of_mem _ (ih.mpr ⟨h1, h2⟩)

theorem removeAll_append (a b : List String) (c : String) :
    removeAll (a ++ b) c = removeAll a c ++ removeAll b c := by
  induction a with
  | nil => rfl
  | cons x xs ih =>
    by_cases hx : x = c
    · simp [removeAll, hx, ih]
    · simp [removeAll, hx, ih]

theorem convert_noop {df : DF} (h : df.cols.filter timeLike = []) :
    convert_catalog_dtypes df = Except.ok df := by
  simp [convert_catalog_dtypes, h, foldlExcept]

theorem convert_utc_ne_param (v : Value) :
    convert_utc v ≠ Except.error PyError.valueErrorSecondaryLevel := by
  cases v with
  | str s =>
    simp only [convert_utc]
    cases isoparse s <;> simp
  | none => simp [convert_utc]
  | bool b => simp [convert_utc]
  | num n => simp [convert_utc]
  | time t => simp [convert_utc]
  | list xs => simp [convert_utc]
  | obj fs => simp [convert_utc]

theorem mapCol_convert_ne_param (df : DF) (c : String) :
    df.mapCol c convert_utc ≠ Except.error PyError.valueErrorSecondaryLevel := by
  simp only [DF.mapCol]
  split
  · next e heq =>
      intro hc
      have he : e = PyError.valueErrorSecondaryLevel := Except.error.inj hc
      subst he
      refine mapExcept_ne_error ?_ df.rows heq
      intro ir
      cases hcv : convert_utc (Row.getV ir.2 c) with
      | error e2 =>
        simp only
        intro hc2
        exact convert_utc_ne_param _ (hcv.trans (congrArg _ (Except.error.inj hc2)))
      | ok v => simp
  · next rows2 heq => simp

theorem convert_ne_param (df : DF) :
    convert_catalog_dtypes df ≠ Except.error PyError.valueErrorSecondaryLevel :=
  foldlExcept_ne_error (fun d c2 => mapCol_convert_ne_param d c2)
    (df.cols.filter timeLike) df

theorem explode_ne_param (df : DF) (c : String) :
    df.explode c ≠ Except.error PyError.valueErrorSecondaryLevel := by
  simp only [DF.explode]
  split <;> simp

theorem dropStrict_ne_param (df : DF) (c : String) :
    df.dropStrict c ≠ Except.error PyError.valueErrorSecondaryLevel := by
  simp only [DF.dropStrict]
  split <;> simp

theorem colToDict_ne_param (df : DF) (c : String) :
    df.colToDict c ≠ Except.error PyError.valueErrorSecondaryLevel := by
  simp only [DF.colToDict]
  split <;> simp

theorem merge_ne_param (left right : DF) (keys : List String) :
    left.merge right keys ≠ Except.error PyError.valueErrorSecondaryLevel := by
  simp only [DF.merge]
  split <;> simp

theorem splitDash_ne_param (v : Value) :
    splitDash v ≠ Except.error PyError.valueErrorSecondaryLevel := by
  cases v <;> simp [splitDash]

theorem assignMetric_ne_param (v : Value) :
    assignMetric v ≠ Except.error PyError.valueErrorSecondaryLevel := by
  cases v with
  | obj fs =>
    simp only [assignMetric]
    cases lookupFields fs "metric" <;> simp
  | none => simp [assignMetric]
  | bool b => simp [assignMetric]
  | num n => simp [assignMetric]
  | str s => simp [assignMetric]
  | time t => simp [assignMetric]
  | list xs => simp [assignMetric]

theorem marketsBranch_ne_param (df0 : DF) :
    CatalogAssetsData.marketsBranch df0 ≠ Except.error PyError.valueErrorSecondaryLevel := by
  simp only [CatalogAssetsData.marketsBranch]
  split
  · next e h1 =>
      intro hc
      exact explode_ne_param df0 "markets" (h1.trans (congrArg _ (Except.error.inj hc)))
  · next df1 h1 =>
      split
      · next e h2 =>
          intro hc
          exact mapExcept_ne_error (fun v => splitDash_ne_param v) _
            (h2.trans (congrArg _ (Except.error.inj hc)))
      · next exch h2 =>
          split
          · next e h3 =>
              intro hc
              exact dropStrict_ne_param _ _ (h3.trans (congrArg _ (Except.error.inj hc)))
          · next df5 h3 => simp

theorem metricsBranch_ne_param (df0 : DF) :
    CatalogAssetsData.metricsBranch df0 ≠ Except.error PyError.valueErrorSecondaryLevel := by
  simp only [CatalogAssetsData.metricsBranch]
  split
  · next e h1 =>
      intro hc
      exact colToDict_ne_param df0 "asset" (h1.trans (congrArg _ (Except.error.inj hc)))
  · next mapper h1 =>
      split
      · next e h2 =>
          intro hc
          exact explode_ne_param df0 "metrics" (h2.trans (congrArg _ (Except.error.inj hc)))
      · next df1 h2 =>
          split
          · next e h3 =>
              intro hc
              exact mapExcept_ne_error (fun v => assignMetric_ne_param v) _
                (h3.trans (congrArg _ (Except.error.inj hc)))
          · next metricVals h3 =>
              split
              · next e h4 =>
                  intro hc
                  exact explode_ne_param _ "frequencies"
                    (h4.trans (congrArg _ (Except.error.inj hc)))
              · next dfm3 h4 =>
                  split
                  · next e h5 =>
                      intro hc
                      exact dropStrict_ne_param _ "frequencies"
                        (h5.trans (congrArg _ (Except.error.inj hc)))
                  · next dfm11 h5 =>
                      split
                      · next e h6 =>
                          intro hc
                          exact dropStrict_ne_param _ "metrics"
                            (h6.trans (congrArg _ (Except.error.inj hc)))
                      · next left h6 =>
                          split
                          · next e h7 =>
                              intro hc
                              exact merge_ne_param _ _ _
                                (h7.trans (congrArg _ (Except.error.inj hc)))
                          · next merged h7 => simp

theorem metricsFrequenciesChain_ne_param (df0 : DF) :
    metricsFrequenciesChain df0 ≠ Except.error PyError.valueErrorSecondaryLevel := by
  simp only [metricsFrequenciesChain]
  split
  · next e h1 =>
      intro hc
      exact explode_ne_param df0 "metrics" (h1.trans (congrArg _ (Except.error.inj hc)))
  · next df1 h1 =>
      split
      · next e h2 =>
          intro hc
          exact explode_ne_param _ "frequencies" (h2.trans (congrArg _ (Except.error.inj hc)))
      · next df4 h2 =>
          split
          · next e h3 =>
              intro hc
              exact dropStrict_ne_param _ "metrics"
                (h3.trans (congrArg _ (Except.error.inj hc)))
          · next df9 h3 => exact dropStrict_ne_param _ "frequencies"

theorem convert_after_ne_param {r : Except PyError DF}
    (hr : r ≠ Except.error PyError.valueErrorSecondaryLevel) :
    (match r with
     | Except.error e => Except.error e
     | Except.ok df => convert_catalog_dtypes df) ≠
      Except.error PyError.valueErrorSecondaryLevel := by
  cases r with
  | error e =>
    simp only
    intro hc
    exact hr (congrArg Except.error (Except.error.inj hc))
  | ok df => exact convert_ne_param df

/-- Claim C3: _expand_df is total and pointwise: on any key and any
row sequence it returns a list of the same length whose entry at
position i is the field of rows[i] at the key when that dict lookup
succeeds, and the absent value (None) when the key is missing or the
row is not subscriptable; it never raises. -/
theorem claim_C3_expand_df_total (key : String) (rows : List Value) :
    (expand_df key rows).length = rows.length ∧
    ∀ i, i < rows.length →
      (expand_df key rows).getD i Value.none =
        ((rows.getD i Value.none).lookup key).getD Value.none := by
  constructor
  · simp [expand_df]
  · intro i hi
    induction rows generalizing i with
    | nil => simp at hi
    | cons r rs ih =>
      cases i with
      | zero => simp [expand_df]
      | succ j =>
        simp only [expand_df, List.map_cons, List.getD_cons_succ] at ih ⊢
        exact ih j (Nat.lt_of_succ_lt_succ hi)

/-- Witness for claim C3 at a concrete input: a dict row with the key,
a non-subscriptable row, and a dict row without the key. -/
theorem claim_C3_expand_df_total_witness :
    (expand_df "frequency"
      [Value.obj [("frequency", Value.str "1d")], Value.num 3, Value.obj []]).getD 0 Value.none =
      Value.str "1d" ∧
    (expand_df "frequency"
      [Value.obj [("frequency", Value.str "1d")], Value.num 3, Value.obj []]).getD 1 Value.none =
      Value.none :=
  ⟨((claim_C3_expand_df_total "frequency"
      [Value.obj [("frequency", Value.str "1d")], Value.num 3, Value.obj []]).2 0
      (by decide)).trans rfl,
   ((claim_C3_expand_df_total "frequency"
      [Value.obj [("frequency", Value.str "1d")], Value.num 3, Value.obj []]).2 1
      (by decide)).trans rfl⟩

/-- Claim C2: CatalogAssetsData.to_dataframe and
CatalogExchangesData.to_dataframe raise the secondary_level ValueError
exactly when the secondary_level argument is none of None, markets and
metrics; for those three values the parameter check never raises. -/
theorem claim_C2_secondary_level_check (records : List Value) (s : Option String) :
    (CatalogAssetsData.to_dataframe records s = Except.error PyError.valueErrorSecondaryLevel
      ↔ ¬ (s = Option.none ∨ s = some "markets" ∨ s = some "metrics")) ∧
    (CatalogExchangesData.to_dataframe records s = Except.error PyError.valueErrorSecondaryLevel
      ↔ ¬ (s = Option.none ∨ s = some "markets" ∨ s = some "metrics")) := by
  constructor
  · constructor
    · intro h hvalid
      rcases hvalid with rfl | rfl | rfl
      · revert h
        simp only [CatalogAssetsData.to_dataframe, if_pos rfl]
        exact convert_ne_param _
      · revert h
        simp only [CatalogAssetsData.to_dataframe]
        rw [if_neg (by simp), if_pos trivial]
        exact convert_after_ne_param (marketsBranch_ne_param _)
      · revert h
        simp only [CatalogAssetsData.to_dataframe]
        rw [if_neg (by simp), if_neg (by simp), if_pos trivial]
        exact convert_after_ne_param (metricsBranch_ne_param _)
    · intro hinvalid
      push_neg at hinvalid
      obtain ⟨h1, h2, h3⟩ := hinvalid
      simp only [CatalogAssetsData.to_dataframe]
      rw [if_neg h1, if_neg h2, if_neg h3]
  · constructor
    · intro h hvalid
      rcases hvalid with rfl | rfl | rfl
      · revert h
        simp only [CatalogExchangesData.to_dataframe, if_pos rfl]
        exact convert_ne_param _
      · revert h
        simp only [CatalogExchangesData.to_dataframe]
        rw [if_neg (by simp), if_pos trivial]
        refine convert_after_ne_param ?_
        cases hb : (mkDataFrame records).explode "markets" with
        | error e =>
          simp only [hb]
          intro hc
          exact explode_ne_param _ _ (hb.trans (congrArg _ (Except.error.inj hc)))
        | ok d => simp [hb]
      · revert h
        simp only [CatalogExchangesData.to_dataframe]
        rw [if_neg (by simp), if_neg (by simp), if_pos trivial]
        exact convert_after_ne_param (metricsFrequenciesChain_ne_param _)
    · intro hinvalid
      push_neg at hinvalid
      obtain ⟨h1, h2, h3⟩ := hinvalid
      simp only [CatalogExchangesData.to_dataframe]
      rw [if_neg h1, if_neg h2, if_neg h3]

/-- Witness for claim C2 at a concrete unrecognized level and at the
three recognized ones. -/
theorem claim_C2_secondary_level_check_witness :
    CatalogAssetsData.to_dataframe [] (some "bogus") =
      Except.error PyError.valueErrorSecondaryLevel ∧
    ¬ (CatalogExchangesData.to_dataframe [] (some "markets") =
      Except.error PyError.valueErrorSecondaryLevel) :=
  ⟨(claim_C2_secondary_level_check [] (some "bogus")).1.mpr (by simp),
   fun h => (claim_C2_secondary_level_check [] (some "markets")).2.mp h (by simp)⟩

/-- Claim C5: _convert_utc returns the parsed timestamp on a valid ISO
string, returns None on any non-string (the TypeError branch), but a
string that fails to parse raises ValueError, which
convert_catalog_dtypes propagates instead of substituting an absent
value (shown on a dataframe with one malformed time cell). -/
theorem claim_C5_convert_utc_branches :
    (∀ s t, isoparse s = some t →
      convert_utc (Value.str s) = Except.ok (Value.time t)) ∧
    (∀ s, isoparse s = Option.none →
      convert_utc (Value.str s) = Except.error PyError.valueErrorIsoParse) ∧
    (∀ v, (∀ s, v ≠ Value.str s) → convert_utc v = Except.ok Value.none) ∧
    convert_catalog_dtypes ⟨["max_time"], [(0, [("max_time", Value.str "not a date")])]⟩ =
      Except.error PyError.valueErrorIsoParse := by
  refine ⟨?_, ?_, ?_, ?_⟩
  · intro s t h
    simp [convert_utc, h]
  · intro s h
    simp [convert_utc, h]
  · intro v hv
    cases v with
    | str s => exact absurd rfl (hv s)
    | none => simp [convert_utc]
    | bool b => simp [convert_utc]
    | num n => simp [convert_utc]
    | time t => simp [convert_utc]
    | list xs => simp [convert_utc]
    | obj fs => simp [convert_utc]
  · rfl

/-- Witness for claim C5 at concrete values: a valid date string, a
malformed one, and a non-string. -/
theorem claim_C5_convert_utc_branches_witness :
    convert_utc (Value.str "2021-03-04") = Except.ok (Value.time ⟨2021, 3, 4, 0, 0, 0⟩) ∧
    convert_utc (Value.str "nope") = Except.error PyError.valueErrorIsoParse ∧
    convert_utc (Value.num 7) = Except.ok Value.none :=
  ⟨claim_C5_convert_utc_branches.1 "2021-03-04" ⟨2021, 3, 4, 0, 0, 0⟩ rfl,
   claim_C5_convert_utc_branches.2.1 "nope" rfl,
   claim_C5_convert_utc_branches.2.2.1 (Value.num 7) (fun s h => Value.noConfusion h)⟩

/-- Claim C7: every to_dataframe method of the catalog classes is a
deterministic function of the record list (and of secondary_level for
the two classes that take it): equal inputs give equal dataframes.
The embedding realizes each method as a pure function, which is sound
because each Python body reads only its arguments and module-level
pure helpers, so two calls on equal inputs run the same fixed sequence
of reshaping steps. -/
theorem claim_C7_to_dataframe_deterministic (a b : List Value) (s s2 : Option String)
    (hab : a = b) (hs : s = s2) :
    CatalogAssetsData.to_dataframe a s = CatalogAssetsData.to_dataframe b s2 ∧
    CatalogExchangesData.to_dataframe a s = CatalogExchangesData.to_dataframe b s2 ∧
    CatalogAssetAlertsData.to_dataframe a = CatalogAssetAlertsData.to_dataframe b ∧
    CatalogAssetPairsData.to_dataframe a = CatalogAssetPairsData.to_dataframe b ∧
    CatalogExchangeAssetsData.to_dataframe a = CatalogExchangeAssetsData.to_dataframe b ∧
    CatalogIndexesData.to_dataframe a = CatalogIndexesData.to_dataframe b ∧
    CatalogInstitutionsData.to_dataframe a = CatalogInstitutionsData.to_dataframe b ∧
    CatalogMarketsData.to_dataframe a = CatalogMarketsData.to_dataframe b ∧
    CatalogMetricsData.to_dataframe a = CatalogMetricsData.to_dataframe b ∧
    CatalogMarketMetricsData.to_dataframe a = CatalogMarketMetricsData.to_dataframe b ∧
    CatalogMarketCandlesData.to_dataframe a = CatalogMarketCandlesData.to_dataframe b := by
  subst hab
  subst hs
  exact ⟨rfl, rfl, rfl, rfl, rfl, rfl, rfl, rfl, rfl, rfl, rfl⟩

/-- Witness for claim C7 at a concrete record list. -/
theorem claim_C7_to_dataframe_deterministic_witness :
    CatalogIndexesData.to_dataframe [Value.obj [("index", Value.str "CMBI")]] =
      CatalogIndexesData.to_dataframe [Value.obj [("index", Value.str "CMBI")]] :=
  (claim_C7_to_dataframe_deterministic
    [Value.obj [("index", Value.str "CMBI")]] [Value.obj [("index", Value.str "CMBI")]]
    Option.none Option.none rfl rfl).2.2.2.2.2.1

/-- Claim C8: every to_dataframe method leaves the receiver record
list element-for-element unchanged, including on the ValueError path
of the secondary_level check: the bodies only read self. -/
theorem claim_C8_receiver_pure (records : List Value) (s : Option String) :
    (CatalogAssetsData.to_dataframe_run records s).2 = records ∧
    (CatalogExchangesData.to_dataframe_run records s).2 = records ∧
    (CatalogAssetAlertsData.to_dataframe_run records).2 = records ∧
    (CatalogAssetPairsData.to_dataframe_run records).2 = records ∧
    (CatalogExchangeAssetsData.to_dataframe_run records).2 = records ∧
    (CatalogIndexesData.to_dataframe_run records).2 = records ∧
    (CatalogInstitutionsData.to_dataframe_run records).2 = records ∧
    (CatalogMarketsData.to_dataframe_run records).2 = records ∧
    (CatalogMetricsData.to_dataframe_run records).2 = records ∧
    (CatalogMarketMetricsData.to_dataframe_run records).2 = records ∧
    (CatalogMarketCandlesData.to_dataframe_run records).2 = records ∧
    (¬ (s = Option.none ∨ s = some "markets" ∨ s = some "metrics") →
      (CatalogAssetsData.to_dataframe_run records s).1 =
        Except.error PyError.valueErrorSecondaryLevel ∧
      (CatalogAssetsData.to_dataframe_run records s).2 = records) := by
  refine ⟨rfl, rfl, rfl, rfl, rfl, rfl, rfl, rfl, rfl, rfl, rfl, ?_⟩
  intro hinvalid
  push_neg at hinvalid
  obtain ⟨h1, h2, h3⟩ := hinvalid
  refine ⟨?_, rfl⟩
  simp only [CatalogAssetsData.to_dataframe_run, CatalogAssetsData.to_dataframe]
  rw [if_neg h1, if_neg h2, if_neg h3]

/-- Witness for claim C8 at a concrete receiver and an unrecognized
secondary_level. -/
theorem claim_C8_receiver_pure_witness :
    (CatalogAssetsData.to_dataframe_run [Value.num 1] (some "zzz")).1 =
      Except.error PyError.valueErrorSecondaryLevel ∧
    (CatalogAssetsData.to_dataframe_run [Value.num 1] (some "zzz")).2 = [Value.num 1] :=
  (claim_C8_receiver_pure [Value.num 1] (some "zzz")).2.2.2.2.2.2.2.2.2.2.2 (by simp)

/-- Claim C9: both example exporters compute api_key as the value of
the CM_API_KEY environment variable when it is set and non-empty, and
as the first command-line argument (sys.argv[1]) otherwise. -/
theorem claim_C9_api_key_source (env : Option String) (argv : List String) :
    (∀ v, env = some v → v ≠ "" →
      ReferenceRatesExporter.api_key env argv = Except.ok v ∧
      ExchangeMetricsExporter.api_key env argv = Except.ok v) ∧
    ((env = Option.none ∨ env = some "") → ∀ a, argv.get? 1 = some a →
      ReferenceRatesExporter.api_key env argv = Except.ok a ∧
      ExchangeMetricsExporter.api_key env argv = Except.ok a) := by
  constructor
  · rintro v rfl hv
    constructor <;>
      simp [ReferenceRatesExporter.api_key, ExchangeMetricsExporter.api_key, apiKeyExpr, hv]
  · rintro (rfl | rfl) a ha <;>
      exact ⟨by simp only [ReferenceRatesExporter.api_key, apiKeyExpr, argvGet, ha,
               if_pos rfl, if_true],
             by simp only [ExchangeMetricsExporter.api_key, apiKeyExpr, argvGet, ha,
               if_pos rfl, if_true]⟩

/-- Witness for claim C9: a set non-empty variable wins, an unset one
falls back to the first argument. -/
theorem claim_C9_api_key_source_witness :
    ReferenceRatesExporter.api_key (some "envkey") ["prog", "argkey"] = Except.ok "envkey" ∧
    ExchangeMetricsExporter.api_key Option.none ["prog", "argkey"] = Except.ok "argkey" :=
  ⟨((claim_C9_api_key_source (some "envkey") ["prog", "argkey"]).1 "envkey" rfl
      (by decide)).1,
   ((claim_C9_api_key_source Option.none ["prog", "argkey"]).2 (Or.inl rfl) "argkey" rfl).2⟩

/-- Claim C10: export_data of the reference-rates exporter creates a
pool of exactly two workers, submits one export task per asset, and
its warning branch is unreachable because the guard
processes_count > 2 is false for the constant 2. -/
theorem claim_C10_export_data_pool (assets : List String) :
    (ReferenceRatesExporter.export_data assets).poolSize = 2 ∧
    (ReferenceRatesExporter.export_data assets).tasks = assets ∧
    (ReferenceRatesExporter.export_data assets).warnedTooManyProcesses = false ∧
    ¬ (ReferenceRatesExporter.processes_count > 2) :=
  ⟨rfl, rfl, rfl, by decide⟩

theorem flatMap_map_left (f : α → β) (g : β → List γ) (l : List α) :
    (l.map f).flatMap g = l.flatMap (fun a => g (f a)) := by
  induction l with
  | nil => rfl
  | cons a l ih => simp [ih]

theorem mem_of_mem_enumFrom {p : Nat × α} {l : List α} {n : Nat}
    (h : p ∈ l.enumFrom n) : p.2 ∈ l := by
  induction l generalizing n with
  | nil => simp [List.enumFrom] at h
  | cons a l ih =>
    simp only [List.enumFrom, List.mem_cons] at h
    rcases h with rfl | h
    · exact List.mem_cons_self _ _
    · exact List.mem_cons_of_mem _ (ih h)

theorem mem_of_mem_enum {p : Nat × α} {l : List α} (h : p ∈ l.enum) : p.2 ∈ l :=
  mem_of_mem_enumFrom h

theorem colVals_length (df : DF) (c : String) : (df.colVals c).length = df.rows.length := by
  simp [DF.colVals]

theorem colVals_dropIgnore_ne (df : DF) {c c2 : String} (h : c2 ≠ c) :
    (df.dropIgnore c).colVals c2 = df.colVals c2 := by
  simp only [DF.dropIgnore, DF.colVals, List.map_map]
  exact map_congr_mem (fun ir _ => Row.getV_dropK_ne _ _ _ h)

theorem cols_dropIgnore (df : DF) (c : String) :
    (df.dropIgnore c).cols = removeAll df.cols c := rfl

theorem colVals_resetIndex (df : DF) (c : String) :
    df.resetIndex.colVals c = df.colVals c :=
  resetIndex_rowVals df (fun row => Row.getV row c)

theorem colVals_assignCol_map_self (df : DF) (c : String) (h0 : Nat × Row → Value) :
    (df.assignCol c (df.rows.map h0)).colVals c = df.rows.map h0 := by
  rw [show (df.assignCol c (df.rows.map h0)).colVals c =
    ((df.assignCol c (df.rows.map h0)).rows).map (fun ir => Row.getV ir.2 c) from rfl]
  rw [assignCol_rows_map, List.map_map]
  exact map_congr_mem (fun ir _ => by
    simp only [Function.comp]
    exact Row.getV_setV_self _ _ _)

theorem colVals_assignCol_map_ne (df : DF) {c c2 : String} (h : c2 ≠ c)
    (h0 : Nat × Row → Value) :
    (df.assignCol c (df.rows.map h0)).colVals c2 = df.colVals c2 := by
  rw [show (df.assignCol c (df.rows.map h0)).colVals c2 =
    ((df.assignCol c (df.rows.map h0)).rows).map (fun ir => Row.getV ir.2 c2) from rfl]
  rw [assignCol_rows_map, List.map_map]
  exact map_congr_mem (fun ir _ => by
    simp only [Function.comp]
    exact Row.getV_setV_ne _ _ _ _ h)

theorem flatMap_congr_mem2 (f g : α → List β) (l : List α)
    (h : ∀ a ∈ l, f a = g a) : l.flatMap f = l.flatMap g :=
  flatMap_congr_mem l h

theorem marketsBranch_spec (records : List Value)
    (hm : "markets" ∈ collectCols records)
    (he : "exchanges" ∈ collectCols records)
    (hok : ∀ r ∈ records, marketsFieldOk r = true)
    (hkeys : ∀ r ∈ records, keysOkC6 r = true) :
    ∃ df, CatalogAssetsData.marketsBranch (mkDataFrame records) = Except.ok df ∧
      (∀ k ∈ df.cols, timeLike k = false) ∧
      df.rows.length = (marketStrs records).length ∧
      df.colVals "market" = (marketStrs records).map Value.str ∧
      df.colVals "exchange" = (marketStrs records).map (fun s =>
        Value.str (String.mk (s.toList.takeWhile (fun ch => ch ≠ '-')))) ∧
      "exchanges" ∉ df.cols := by
  have hcolsAll : ∀ k ∈ collectCols records,
      timeLike k = false ∧ k ≠ "market" ∧ k ≠ "exchange" := by
    intro k hk
    obtain ⟨r, hr, hkr⟩ := mem_collectCols_cases hk
    have hall := hkeys r hr
    simp only [keysOkC6, List.all_eq_true] at hall
    have h2 := hall k hkr
    simp only [Bool.and_eq_true, Bool.not_eq_true', bne_iff_ne, ne_eq] at h2
    exact ⟨h2.1.1, h2.1.2, h2.2⟩
  have hmar : "market" ∉ collectCols records := fun hc => (hcolsAll _ hc).2.1 rfl
  have hexc : "exchange" ∉ collectCols records := fun hc => (hcolsAll _ hc).2.2 rfl
  obtain ⟨df1, hE, hc1, hr1⟩ : ∃ df1,
      (mkDataFrame records).explode "markets" = Except.ok df1 ∧
      df1.cols = collectCols records ∧
      df1.rows = (mkDataFrame records).rows.flatMap (fun ir =>
        (explodeVals (Row.getV ir.2 "markets")).map
          (fun x => (ir.1, Row.setV ir.2 "markets" x))) :=
    ⟨_, explode_ok hm, rfl, rfl⟩
  have hMcell : ((df1.fillnaCol "markets" (Value.str "")).renameCol
      "markets" "market").colVals "market" = (marketStrs records).map Value.str := by
    simp only [DF.colVals, DF.renameCol, DF.fillnaCol, List.map_map]
    rw [hr1]
    rw [show (mkDataFrame records).rows =
      records.enum.map (fun p => (p.1, rowOf (collectCols records) p.2)) from rfl]
    rw [mapFlatMap, flatMap_map_left]
    simp only [List.map_map]
    refine (flatMap_congr_mem2 _ (fun p => (marketStrsOf p.2).map Value.str)
        records.enum ?_).trans
      ((enum_flatMap_snd (fun r => (marketStrsOf r).map Value.str) records).trans
        (mapFlatMap Value.str marketStrsOf records).symm)
    intro p hp
    have hr : p.2 ∈ records := mem_of_mem_enum hp
    have hkeys0 : Row.keysOf (rowOf (collectCols records) p.2) = collectCols records :=
      Row.keysOf_rowOf _ _
    have hk1 : ∀ x, Row.keysOf (Row.setV (rowOf (collectCols records) p.2) "markets" x) =
        collectCols records := by
      intro x
      rw [Row.keysOf_setV_mem]
      · exact hkeys0
      · rw [hkeys0]; exact hm
    have hfield := hok p.2 hr
    simp only
    rw [show Row.getV (rowOf (collectCols records) p.2) "markets" =
      (p.2.lookup "markets").getD Value.none from Row.getV_rowOf_mem _ _ _ hm]
    cases hcase : p.2.lookup "markets" with
    | none =>
      simp only [hcase, Option.getD_none, marketStrsOf]
      rw [show explodeVals Value.none = [Value.none] from rfl]
      simp only [List.map_cons, List.map_nil, Function.comp, Row.getV_setV_self]
      have hk2 : Row.keysOf (Row.setV (Row.setV (rowOf (collectCols records) p.2)
          "markets" Value.none) "markets" (Value.str "")) = collectCols records := by
        rw [Row.keysOf_setV_mem]
        · exact hk1 Value.none
        · rw [hk1 Value.none]; exact hm
      rw [Row.getV_renameK_to _ _ _ (by rw [hk2]; exact hmar)]
      rw [Row.getV_setV_self]
    | some v =>
      cases v with
      | list xs =>
        cases xs with
        | nil =>
          simp only [hcase, Option.getD_some, marketStrsOf]
          rw [show explodeVals (Value.list []) = [Value.none] from rfl]
          simp only [List.map_cons, List.map_nil, Function.comp, Row.getV_setV_self]
          have hk2 : Row.keysOf (Row.setV (Row.setV (rowOf (collectCols records) p.2)
              "markets" Value.none) "markets" (Value.str "")) = collectCols records := by
            rw [Row.keysOf_setV_mem]
            · exact hk1 Value.none
            · rw [hk1 Value.none]; exact hm
          rw [Row.getV_renameK_to _ _ _ (by rw [hk2]; exact hmar)]
          rw [Row.getV_setV_self]
        | cons y ys =>
          simp only [marketsFieldOk, hcase, List.all_eq_true] at hfield
          simp only [hcase, Option.getD_some, marketStrsOf]
          rw [show explodeVals (Value.list (y :: ys)) = y :: ys from rfl]
          rw [List.map_map]
          refine map_congr_mem ?_
          intro v hv
          obtain ⟨s, rfl⟩ : ∃ s, v = Value.str s := by
            have hb := hfield v hv
            cases v with
            | str s => exact ⟨s, rfl⟩
            | none => simp at hb
            | bool b => simp at hb
            | num n => simp at hb
            | time t => simp at hb
            | list l2 => simp at hb
            | obj f2 => simp at hb
          simp only [Function.comp, Row.getV_setV_self]
          rw [Row.getV_renameK_to _ _ _ (by rw [hk1 (Value.str s)]; exact hmar)]
          rw [Row.getV_setV_self]
      | none => simp [marketsFieldOk, hcase] at hfield
      | bool b => simp [marketsFieldOk, hcase] at hfield
      | num n => simp [marketsFieldOk, hcase] at hfield
      | str s2 => simp [marketsFieldOk, hcase] at hfield
      | time t => simp [marketsFieldOk, hcase] at hfield
      | obj fs => simp [marketsFieldOk, hcase] at hfield
  have hcols3 : ((df1.fillnaCol "markets" (Value.str "")).renameCol
      "markets" "market").cols =
      (collectCols records).map (fun c => if c = "markets" then "market" else c) := by
    simp only [DF.renameCol, DF.fillnaCol]
    rw [hc1]
  have hexch3 : "exchange" ∉ ((df1.fillnaCol "markets" (Value.str "")).renameCol
      "markets" "market").cols := by
    rw [hcols3]
    intro hmem
    obtain ⟨c, hc, heq⟩ := List.mem_map.mp hmem
    by_cases hcm : c = "markets"
    · rw [if_pos hcm] at heq
      exact absurd heq (by decide)
    · rw [if_neg hcm] at heq
      exact hexc (heq ▸ hc)
  have hexchs3 : "exchanges" ∈ ((df1.fillnaCol "markets" (Value.str "")).renameCol
      "markets" "market").cols := by
    rw [hcols3]
    exact List.mem_map.mpr ⟨"exchanges", he, by decide⟩
  have hsplit : mapExcept splitDash (((df1.fillnaCol "markets" (Value.str "")).renameCol
      "markets" "market").colVals "market") =
      Except.ok ((((df1.fillnaCol "markets" (Value.str "")).renameCol
        "markets" "market").colVals "market").map (fun v =>
          match v with
          | Value.str s => Value.str (String.mk (s.toList.takeWhile (fun ch => ch ≠ '-')))
          | v => v)) := by
    apply mapExcept_ok_of
    intro v hv
    rw [hMcell] at hv
    obtain ⟨s, hs, rfl⟩ := List.mem_map.mp hv
    rfl
  have hvals : (((df1.fillnaCol "markets" (Value.str "")).renameCol
      "markets" "market").colVals "market").map (fun v =>
        match v with
        | Value.str s => Value.str (String.mk (s.toList.takeWhile (fun ch => ch ≠ '-')))
        | v => v) =
      ((df1.fillnaCol "markets" (Value.str "")).renameCol
        "markets" "market").rows.map (fun ir => (fun v =>
          match v with
          | Value.str s => Value.str (String.mk (s.toList.takeWhile (fun ch => ch ≠ '-')))
          | v => v) (Row.getV ir.2 "market")) := by
    simp only [DF.colVals, List.map_map]
    rfl
  have hmem4 : "exchanges" ∈ (((df1.fillnaCol "markets" (Value.str "")).renameCol
      "markets" "market").assignCol "exchange"
      ((((df1.fillnaCol "markets" (Value.str "")).renameCol "markets" "market").colVals
        "market").map (fun v =>
          match v with
          | Value.str s => Value.str (String.mk (s.toList.takeWhile (fun ch => ch ≠ '-')))
          | v => v))).cols := by
    rw [assignCol_cols_notMem hexch3]
    exact List.mem_append_left _ hexchs3
  have hdrop := dropStrict_ok hmem4
  refine ⟨(((((df1.fillnaCol "markets" (Value.str "")).renameCol
      "markets" "market").assignCol "exchange"
      ((((df1.fillnaCol "markets" (Value.str "")).renameCol "markets" "market").colVals
        "market").map (fun v =>
          match v with
          | Value.str s => Value.str (String.mk (s.toList.takeWhile (fun ch => ch ≠ '-')))
          | v => v))).dropIgnore "exchanges")).resetIndex,
    by simp only [CatalogAssetsData.marketsBranch, hE, hsplit, hdrop], ?_, ?_, ?_, ?_, ?_⟩
  · intro k hk
    rw [resetIndex_cols, cols_dropIgnore, assignCol_cols_notMem hexch3, hcols3] at hk
    obtain ⟨hk4, hkne⟩ := mem_removeAll.mp hk
    rcases List.mem_append.mp hk4 with hk4 | hk4
    · obtain ⟨c, hc, heq⟩ := List.mem_map.mp hk4
      by_cases hcm : c = "markets"
      · rw [if_pos hcm] at heq
        rw [← heq]
        decide
      · rw [if_neg hcm] at heq
        rw [← heq]
        exact (hcolsAll c hc).1
    · rw [List.mem_singleton.mp hk4]
      decide
  · rw [← colVals_length _ "market", colVals_resetIndex,
      colVals_dropIgnore_ne _ (show "market" ≠ "exchanges" by decide),
      hvals, colVals_assignCol_map_ne _ (show "market" ≠ "exchange" by decide),
      hMcell, List.length_map]
  · rw [colVals_resetIndex,
      colVals_dropIgnore_ne _ (show "market" ≠ "exchanges" by decide),
      hvals, colVals_assignCol_map_ne _ (show "market" ≠ "exchange" by decide), hMcell]
  · rw [colVals_resetIndex,
      colVals_dropIgnore_ne _ (show "exchange" ≠ "exchanges" by decide),
      hvals, colVals_assignCol_map_self, ← hvals, hMcell, List.map_map]
    exact map_congr_mem (fun s _ => rfl)
  · intro hk
    rw [resetIndex_cols, cols_dropIgnore] at hk
    exact (mem_removeAll.mp hk).2 rfl

/-- Claim C6: in CatalogAssetsData.to_dataframe with
secondary_level markets, the markets list of every record is exploded
into one row per market; a record with a missing or empty markets
field yields one row whose market cell is the empty string; every
row's exchange cell is the substring of its market cell before the
first dash (empty when market is empty); and the nested exchanges
column is dropped.  Hypotheses: some record carries a markets key and
some record an exchanges key, every markets field is a list of
strings when present, and no record key is datetime-named or collides
with the derived market and exchange columns. -/
theorem claim_C6_assets_markets_level (records : List Value)
    (hm : "markets" ∈ collectCols records)
    (he : "exchanges" ∈ collectCols records)
    (hok : ∀ r ∈ records, marketsFieldOk r = true)
    (hkeys : ∀ r ∈ records, keysOkC6 r = true) :
    ∃ df, CatalogAssetsData.to_dataframe records (some "markets") = Except.ok df ∧
      df.rows.length = (marketStrs records).length ∧
      df.colVals "market" = (marketStrs records).map Value.str ∧
      df.colVals "exchange" = (marketStrs records).map (fun s =>
        Value.str (String.mk (s.toList.takeWhile (fun ch => ch ≠ '-')))) ∧
      "exchanges" ∉ df.cols := by
  obtain ⟨df, hb, hcols, hlen, hmkt, hexch, hnmem⟩ :=
    marketsBranch_spec records hm he hok hkeys
  refine ⟨df, ?_, hlen, hmkt, hexch, hnmem⟩
  simp only [CatalogAssetsData.to_dataframe]
  rw [if_neg (by simp), if_pos trivial]
  simp only [hb]
  exact convert_noop (filter_eq_nil_of_false hcols)

/-- Witness for claim C6 on two concrete records: one with two market
strings, one with the markets field missing. -/
theorem claim_C6_assets_markets_level_witness :
    ∃ df, CatalogAssetsData.to_dataframe
        [Value.obj [("asset", Value.str "btc"),
          ("markets", Value.list [Value.str "binance-btc-usdt",
            Value.str "coinbase-btc-usd"]),
          ("exchanges", Value.list [Value.str "binance"])],
         Value.obj [("asset", Value.str "xyz"),
          ("exchanges", Value.list [])]] (some "markets") = Except.ok df ∧
      df.rows.length = (marketStrs
        [Value.obj [("asset", Value.str "btc"),
          ("markets", Value.list [Value.str "binance-btc-usdt",
            Value.str "coinbase-btc-usd"]),
          ("exchanges", Value.list [Value.str "binance"])],
         Value.obj [("asset", Value.str "xyz"),
          ("exchanges", Value.list [])]]).length ∧
      df.colVals "market" = (marketStrs
        [Value.obj [("asset", Value.str "btc"),
          ("markets", Value.list [Value.str "binance-btc-usdt",
            Value.str "coinbase-btc-usd"]),
          ("exchanges", Value.list [Value.str "binance"])],
         Value.obj [("asset", Value.str "xyz"),
          ("exchanges", Value.list [])]]).map Value.str ∧
      df.colVals "exchange" = (marketStrs
        [Value.obj [("asset", Value.str "btc"),
          ("markets", Value.list [Value.str "binance-btc-usdt",
            Value.str "coinbase-btc-usd"]),
          ("exchanges", Value.list [Value.str "binance"])],
         Value.obj [("asset", Value.str "xyz"),
          ("exchanges", Value.list [])]]).map (fun s =>
        Value.str (String.mk (s.toList.takeWhile (fun ch => ch ≠ '-')))) ∧
      "exchanges" ∉ df.cols :=
  claim_C6_assets_markets_level
    [Value.obj [("asset", Value.str "btc"),
      ("markets", Value.list [Value.str "binance-btc-usdt",
        Value.str "coinbase-btc-usd"]),
      ("exchanges", Value.list [Value.str "binance"])],
     Value.obj [("asset", Value.str "xyz"),
      ("exchanges", Value.list [])]]
    (by decide) (by decide) (by decide) (by decide)

theorem colVals_mapRows_setV_ne (df : DF) {c c2 : String} (h : c2 ≠ c)
    (g : Nat × Row → Value) :
    DF.colVals ⟨df.cols, df.rows.map (fun ir => (ir.1, Row.setV ir.2 c (g ir)))⟩ c2 =
      df.colVals c2 := by
  simp only [DF.colVals, List.map_map]
  exact map_congr_mem (fun ir _ => by
    simp only [Function.comp]
    exact Row.getV_setV_ne _ _ _ _ h)

theorem colVals_mapRows_setV_self (df : DF) (c : String) (g : Nat × Row → Value) :
    DF.colVals ⟨df.cols, df.rows.map (fun ir => (ir.1, Row.setV ir.2 c (g ir)))⟩ c =
      df.rows.map g := by
  simp only [DF.colVals, List.map_map]
  exact map_congr_mem (fun ir _ => by
    simp only [Function.comp]
    exact Row.getV_setV_self _ _ _)

theorem map_eq_of_forall2 {R : α → β → Prop} {l1 : List α} {l2 : List β}
    (h : List.Forall₂ R l1 l2) (f : α → γ) (g : β → γ)
    (hfg : ∀ a b, R a b → g b = f a) : l2.map g = l1.map f := by
  induction h with
  | nil => rfl
  | cons hab _ ih => simp only [List.map_cons, hfg _ _ hab, ih]

theorem forall2_map_of_forall2 {R : α → β → Prop} {S : γ → δ → Prop}
    {l1 : List α} {l2 : List β} (h : List.Forall₂ R l1 l2) (f : α → γ) (g : β → δ)
    (hs : ∀ a b, R a b → S (f a) (g b)) : List.Forall₂ S (l1.map f) (l2.map g) := by
  induction h with
  | nil => exact List.Forall₂.nil
  | cons hab _ ih => exact List.Forall₂.cons (hs _ _ hab) ih

theorem mapCol_ok_inv {df d1 : DF} {c : String} {f : Value → Except PyError Value}
    (h : df.mapCol c f = Except.ok d1) :
    d1.cols = df.cols ∧
    List.Forall₂ (fun ir jr => jr.1 = ir.1 ∧
      ∃ v, f (Row.getV ir.2 c) = Except.ok v ∧ jr.2 = Row.setV ir.2 c v)
      df.rows d1.rows := by
  simp only [DF.mapCol] at h
  cases hm : mapExcept (fun ir =>
      match f (Row.getV ir.2 c) with
      | Except.error e => Except.error e
      | Except.ok v => Except.ok (ir.1, Row.setV ir.2 c v)) df.rows with
  | error e => rw [hm] at h; cases h
  | ok rows2 =>
    rw [hm] at h
    cases h
    refine ⟨rfl, ?_⟩
    have h2 := mapExcept_forall2 hm
    refine h2.imp ?_
    intro ir jr hj
    cases hf : f (Row.getV ir.2 c) with
    | error e => rw [hf] at hj; cases hj
    | ok v =>
      rw [hf] at hj
      simp only [Except.ok.injEq] at hj
      refine ⟨?_, v, rfl, ?_⟩
      · rw [← hj]
      · rw [← hj]

theorem convert_fold_spec (cs : List String) :
    ∀ (df df2 : DF), cs.Nodup →
    foldlExcept (fun d c => d.mapCol c convert_utc) df cs = Except.ok df2 →
    df2.cols = df.cols ∧ df2.rows.length = df.rows.length ∧
    (∀ c, c ∉ cs → df2.colVals c = df.colVals c) ∧
    (∀ c ∈ cs, List.Forall₂ (fun v w => convert_utc v = Except.ok w)
      (df.colVals c) (df2.colVals c)) := by
  induction cs with
  | nil =>
    intro df df2 _ h
    simp only [foldlExcept] at h
    cases h
    exact ⟨rfl, rfl, fun c _ => rfl, fun c hc => absurd hc (List.not_mem_nil c)⟩
  | cons c0 cs ih =>
    intro df df2 hnd h
    simp only [foldlExcept] at h
    cases hs : df.mapCol c0 convert_utc with
    | error e => rw [hs] at h; cases h
    | ok d1 =>
      rw [hs] at h
      obtain ⟨hnd0, hndcs⟩ := List.nodup_cons.mp hnd
      obtain ⟨hcols1, hfa1⟩ := mapCol_ok_inv hs
      obtain ⟨hcols2, hlen2, hne2, hin2⟩ := ih d1 df2 hndcs h
      have hlen1 : d1.rows.length = df.rows.length := hfa1.length_eq.symm
      have hcellne : ∀ c2, c2 ≠ c0 → d1.colVals c2 = df.colVals c2 := by
        intro c2 hc2
        exact map_eq_of_forall2 hfa1 (fun ir => Row.getV ir.2 c2)
          (fun jr => Row.getV jr.2 c2)
          (fun ir jr hj => by
            obtain ⟨_, v, _, hjr⟩ := hj
            show Row.getV jr.2 c2 = Row.getV ir.2 c2
            rw [hjr]
            exact Row.getV_setV_ne _ _ _ _ hc2)
      have hcellself : List.Forall₂ (fun v w => convert_utc v = Except.ok w)
          (df.colVals c0) (d1.colVals c0) := by
        refine forall2_map_of_forall2 hfa1 (fun ir => Row.getV ir.2 c0)
          (fun jr => Row.getV jr.2 c0) ?_
        intro ir jr hj
        obtain ⟨_, v, hv, hjr⟩ := hj
        show convert_utc (Row.getV ir.2 c0) = Except.ok (Row.getV jr.2 c0)
        rw [hjr, Row.getV_setV_self]
        exact hv
      refine ⟨hcols2.trans hcols1, hlen2.trans hlen1, ?_, ?_⟩
      · intro c hc
        have hc0 : c ≠ c0 := fun hh => hc (hh ▸ List.mem_cons_self c0 cs)
        have hcs : c ∉ cs := fun hh => hc (List.mem_cons_of_mem _ hh)
        rw [hne2 c hcs, hcellne c hc0]
      · intro c hc
        rcases List.mem_cons.mp hc with rfl | hc2
        · have : df2.colVals c = d1.colVals c := hne2 c hnd0
          rw [this]
          exact hcellself
        · have hc0 : c ≠ c0 := fun hh => hnd0 (hh ▸ hc2)
          rw [← hcellne c hc0]
          exact hin2 c hc2

/-- Claim C4: convert_catalog_dtypes coerces exactly the columns whose
name is time or ends with _time: in every such column each value is
replaced by the result of _convert_utc (its parsed timestamp for a
valid ISO string, an absent value otherwise), and the values of every
other column are unchanged.  Stated for any dataframe with duplicate-
free column labels on which the coercion step succeeds. -/
theorem claim_C4_convert_dtypes_cols (df df2 : DF) (hnd : df.cols.Nodup)
    (h : convert_catalog_dtypes df = Except.ok df2) :
    df2.cols = df.cols ∧
    df2.rows.length = df.rows.length ∧
    (∀ c, timeLike c = false → df2.colVals c = df.colVals c) ∧
    (∀ c ∈ df.cols, timeLike c = true →
      List.Forall₂ (fun v w => convert_utc v = Except.ok w)
        (df.colVals c) (df2.colVals c)) ∧
    (∀ v w, convert_utc v = Except.ok w →
      (∃ s t, v = Value.str s ∧ isoparse s = some t ∧ w = Value.time t) ∨
        w = Value.none) := by
  obtain ⟨h1, h2, h3, h4⟩ :=
    convert_fold_spec (df.cols.filter timeLike) df df2 (hnd.filter _) h
  refine ⟨h1, h2, ?_, ?_, ?_⟩
  · intro c hc
    refine h3 c (fun hmem => ?_)
    have hct := (List.mem_filter.mp hmem).2
    rw [hc] at hct
    cases hct
  · intro c hcm hct
    exact h4 c (List.mem_filter.mpr ⟨hcm, hct⟩)
  · intro v w hvw
    cases v with
    | str s =>
      simp only [convert_utc] at hvw
      cases hp : isoparse s with
      | none => rw [hp] at hvw; cases hvw
      | some t =>
        rw [hp] at hvw
        simp only [Except.ok.injEq] at hvw
        exact Or.inl ⟨s, t, rfl, hp, hvw.symm⟩
    | none =>
      simp only [convert_utc, Except.ok.injEq] at hvw
      exact Or.inr hvw.symm
    | bool b =>
      simp only [convert_utc, Except.ok.injEq] at hvw
      exact Or.inr hvw.symm
    | num n =>
      simp only [convert_utc, Except.ok.injEq] at hvw
      exact Or.inr hvw.symm
    | time t =>
      simp only [convert_utc, Except.ok.injEq] at hvw
      exact Or.inr hvw.symm
    | list xs =>
      simp only [convert_utc, Except.ok.injEq] at hvw
      exact Or.inr hvw.symm
    | obj fs =>
      simp only [convert_utc, Except.ok.injEq] at hvw
      exact Or.inr hvw.symm

/-- Witness for claim C4 on a concrete two-column dataframe: the
non-datetime column is untouched, the min_time column is coerced
pointwise. -/
theorem claim_C4_convert_dtypes_cols_witness :
    (⟨["a", "min_time"],
      [(0, [("a", Value.num 1), ("min_time", Value.time ⟨2020, 1, 1, 0, 0, 0⟩)])]⟩ :
        DF).colVals "a" =
      (⟨["a", "min_time"],
        [(0, [("a", Value.num 1), ("min_time", Value.str "2020-01-01")])]⟩ : DF).colVals
        "a" ∧
    List.Forall₂ (fun v w => convert_utc v = Except.ok w)
      ((⟨["a", "min_time"],
        [(0, [("a", Value.num 1), ("min_time", Value.str "2020-01-01")])]⟩ :
          DF).colVals "min_time")
      ((⟨["a", "min_time"],
        [(0, [("a", Value.num 1), ("min_time", Value.time ⟨2020, 1, 1, 0, 0, 0⟩)])]⟩ :
          DF).colVals "min_time") :=
  ⟨(claim_C4_convert_dtypes_cols
      ⟨["a", "min_time"], [(0, [("a", Value.num 1), ("min_time", Value.str "2020-01-01")])]⟩
      ⟨["a", "min_time"],
        [(0, [("a", Value.num 1), ("min_time", Value.time ⟨2020, 1, 1, 0, 0, 0⟩)])]⟩
      (by decide) rfl).2.2.1 "a" (by decide),
   (claim_C4_convert_dtypes_cols
      ⟨["a", "min_time"], [(0, [("a", Value.num 1), ("min_time", Value.str "2020-01-01")])]⟩
      ⟨["a", "min_time"],
        [(0, [("a", Value.num 1), ("min_time", Value.time ⟨2020, 1, 1, 0, 0, 0⟩)])]⟩
      (by decide) rfl).2.2.2.1 "min_time" (by decide) (by decide)⟩

theorem convert_two_spec (D : DF)
    (hfilter : D.cols.filter timeLike = ["min_time", "max_time"])
    (hmin : ∀ v ∈ D.colVals "min_time", ∀ s, v = Value.str s → (isoparse s).isSome = true)
    (hmax : ∀ v ∈ D.colVals "max_time", ∀ s, v = Value.str s → (isoparse s).isSome = true) :
    ∃ D2, convert_catalog_dtypes D = Except.ok D2 ∧ D2.cols = D.cols ∧
      D2.rows.length = D.rows.length ∧
      D2.colVals "min_time" = (D.colVals "min_time").map (fun v =>
        match v with
        | Value.str s =>
          match isoparse s with
          | some t => Value.time t
          | Option.none => Value.none
        | _ => Value.none) ∧
      D2.colVals "max_time" = (D.colVals "max_time").map (fun v =>
        match v with
        | Value.str s =>
          match isoparse s with
          | some t => Value.time t
          | Option.none => Value.none
        | _ => Value.none) ∧
      (∀ c, c ≠ "min_time" → c ≠ "max_time" → D2.colVals c = D.colVals c) := by
  have hconv : ∀ v, (∀ s, v = Value.str s → (isoparse s).isSome = true) →
      convert_utc v = Except.ok ((fun v =>
        match v with
        | Value.str s =>
          match isoparse s with
          | some t => Value.time t
          | Option.none => Value.none
        | _ => Value.none) v) := by
    intro v hv
    cases v with
    | str s =>
      obtain ⟨t, ht⟩ := Option.isSome_iff_exists.mp (hv s rfl)
      simp only [convert_utc, ht]
    | none => rfl
    | bool b => rfl
    | num n => rfl
    | time t => rfl
    | list xs => rfl
    | obj fs => rfl
  have hstep1 : D.mapCol "min_time" convert_utc = Except.ok ⟨D.cols,
      D.rows.map (fun ir => (ir.1, Row.setV ir.2 "min_time" ((fun v =>
        match v with
        | Value.str s =>
          match isoparse s with
          | some t => Value.time t
          | Option.none => Value.none
        | _ => Value.none) (Row.getV ir.2 "min_time"))))⟩ := by
    refine mapCol_ok_of (fun v =>
        match v with
        | Value.str s =>
          match isoparse s with
          | some t => Value.time t
          | Option.none => Value.none
        | _ => Value.none) ?_
    intro ir hir
    refine hconv _ (hmin _ ?_)
    exact List.mem_map.mpr ⟨ir, hir, rfl⟩
  have hstep2 : (⟨D.cols,
      D.rows.map (fun ir => (ir.1, Row.setV ir.2 "min_time" ((fun v =>
        match v with
        | Value.str s =>
          match isoparse s with
          | some t => Value.time t
          | Option.none => Value.none
        | _ => Value.none) (Row.getV ir.2 "min_time"))))⟩ : DF).mapCol "max_time"
        convert_utc = Except.ok ⟨D.cols,
      (D.rows.map (fun ir => (ir.1, Row.setV ir.2 "min_time" ((fun v =>
        match v with
        | Value.str s =>
          match isoparse s with
          | some t => Value.time t
          | Option.none => Value.none
        | _ => Value.none) (Row.getV ir.2 "min_time"))))).map
        (fun ir => (ir.1, Row.setV ir.2 "max_time" ((fun v =>
        match v with
        | Value.str s =>
          match isoparse s with
          | some t => Value.time t
          | Option.none => Value.none
        | _ => Value.none) (Row.getV ir.2 "max_time"))))⟩ := by
    refine mapCol_ok_of (fun v =>
        match v with
        | Value.str s =>
          match isoparse s with
          | some t => Value.time t
          | Option.none => Value.none
        | _ => Value.none) ?_
    intro ir hir
    obtain ⟨ir0, hir0, rfl⟩ := List.mem_map.mp hir
    refine hconv _ ?_
    rw [show Row.getV ((ir0.1, Row.setV ir0.2 "min_time" ((fun v =>
        match v with
        | Value.str s =>
          match isoparse s with
          | some t => Value.time t
          | Option.none => Value.none
        | _ => Value.none) (Row.getV ir0.2 "min_time"))) : Nat × Row).2 "max_time" =
      Row.getV ir0.2 "max_time" from
        Row.getV_setV_ne _ _ _ _ (by decide)]
    refine hmax _ ?_
    exact List.mem_map.mpr ⟨ir0, hir0, rfl⟩
  refine ⟨⟨D.cols,
      (D.rows.map (fun ir => (ir.1, Row.setV ir.2 "min_time" ((fun v =>
        match v with
        | Value.str s =>
          match isoparse s with
          | some t => Value.time t
          | Option.none => Value.none
        | _ => Value.none) (Row.getV ir.2 "min_time"))))).map
        (fun ir => (ir.1, Row.setV ir.2 "max_time" ((fun v =>
        match v with
        | Value.str s =>
          match isoparse s with
          | some t => Value.time t
          | Option.none => Value.none
        | _ => Value.none) (Row.getV ir.2 "max_time"))))⟩,
    ?_, rfl, ?_, ?_, ?_, ?_⟩
  · rw [show convert_catalog_dtypes D =
      foldlExcept (fun d c => d.mapCol c convert_utc) D (D.cols.filter timeLike) from rfl]
    rw [hfilter]
    simp only [foldlExcept, hstep1, hstep2]
  · simp
  · simp only [DF.colVals, List.map_map]
    refine map_congr_mem ?_
    intro ir _
    simp only [Function.comp]
    rw [Row.getV_setV_ne _ _ _ _ (show "min_time" ≠ "max_time" by decide),
      Row.getV_setV_self]
  · simp only [DF.colVals, List.map_map]
    refine map_congr_mem ?_
    intro ir _
    simp only [Function.comp]
    rw [Row.getV_setV_self,
      Row.getV_setV_ne _ _ _ _ (show "max_time" ≠ "min_time" by decide)]
  · intro c h1 h2
    simp only [DF.colVals, List.map_map]
    refine map_congr_mem ?_
    intro ir _
    simp only [Function.comp]
    rw [Row.getV_setV_ne _ _ _ _ h2, Row.getV_setV_ne _ _ _ _ h1]

theorem mem_assignCol_cols {df : DF} {c2 : String} (h : c2 ∈ df.cols)
    (c : String) (vals : List Value) : c2 ∈ (df.assignCol c vals).cols := by
  simp only [DF.assignCol]
  split
  · exact h
  · exact List.mem_append_left _ h

theorem mem_flatMap_iff {f : α → List β} {b : β} {l : List α} :
    b ∈ l.flatMap f ↔ ∃ a ∈ l, b ∈ f a := by
  induction l with
  | nil => simp
  | cons a l ih =>
    simp only [List.flatMap_cons, List.mem_append, ih, List.mem_cons]
    constructor
    · rintro (h | ⟨a2, h2, h3⟩)
      · exact ⟨a, Or.inl rfl, h⟩
      · exact ⟨a2, Or.inr h2, h3⟩
    · rintro ⟨a2, rfl | h2, h3⟩
      · exact Or.inl h3
      · exact Or.inr ⟨a2, h2, h3⟩

/-- Claim C1, amended: CatalogIndexesData.to_dataframe flattens each
record into one row per frequency entry when the frequencies list is
non-empty and into a single all-absent row when it is empty (pandas
explode semantics); the frequency column equals the corresponding
entry field, the min_time and max_time columns equal the parsed
timestamps of the corresponding entry fields (absent fields staying
absent), and the nested frequencies column is dropped.  Hypotheses:
every record carries a frequencies list whose entries have valid ISO
strings (or no value, or a non-string value) in min_time and
max_time, no record key is datetime-named or collides with the
derived frequency column, and the frequencies key occurs. -/
theorem claim_C1_indexes_flatten (records : List Value)
    (hfreq : ∀ r ∈ records, freqFieldOk r = true)
    (hkeys : ∀ r ∈ records, keysOkC1 r = true)
    (hmem : "frequencies" ∈ collectCols records) :
    ∃ df, CatalogIndexesData.to_dataframe records = Except.ok df ∧
      df.rows.length = (freqEntries records).length ∧
      df.colVals "frequency" = (freqEntries records).map (fun e =>
        (e.lookup "frequency").getD Value.none) ∧
      df.colVals "min_time" = (freqEntries records).map (fun e => parsedTime e "min_time") ∧
      df.colVals "max_time" = (freqEntries records).map (fun e => parsedTime e "max_time") ∧
      "frequencies" ∉ df.cols := by
  have hcolsAll : ∀ k ∈ collectCols records, timeLike k = false ∧ k ≠ "frequency" := by
    intro k hk
    obtain ⟨r, hr, hkr⟩ := mem_collectCols_cases hk
    have hall := hkeys r hr
    simp only [keysOkC1, List.all_eq_true] at hall
    have h2 := hall k hkr
    simp only [Bool.and_eq_true, Bool.not_eq_true', bne_iff_ne, ne_eq] at h2
    exact ⟨h2.1, h2.2⟩
  obtain ⟨df1, hE, hc1, hr1⟩ : ∃ df1,
      (mkDataFrame records).explode "frequencies" = Except.ok df1 ∧
      df1.cols = collectCols records ∧
      df1.rows = (mkDataFrame records).rows.flatMap (fun ir =>
        (explodeVals (Row.getV ir.2 "frequencies")).map
          (fun x => (ir.1, Row.setV ir.2 "frequencies" x))) :=
    ⟨_, explode_ok hmem, rfl, rfl⟩
  have hfreqcol : df1.colVals "frequencies" = freqEntries records := by
    simp only [DF.colVals]
    rw [hr1]
    rw [show (mkDataFrame records).rows =
      records.enum.map (fun p => (p.1, rowOf (collectCols records) p.2)) from rfl]
    rw [mapFlatMap, flatMap_map_left]
    simp only [List.map_map]
    refine (flatMap_congr_mem2 _ (fun p => freqEntriesOf p.2) records.enum ?_).trans
      (enum_flatMap_snd freqEntriesOf records)
    intro p hp
    have hr : p.2 ∈ records := mem_of_mem_enum hp
    have hf := hfreq p.2 hr
    simp only
    rw [show Row.getV (rowOf (collectCols records) p.2) "frequencies" =
      (p.2.lookup "frequencies").getD Value.none from Row.getV_rowOf_mem _ _ _ hmem]
    cases hcase : p.2.lookup "frequencies" with
    | none => simp [freqFieldOk, hcase] at hf
    | some v =>
      cases v with
      | list xs =>
        cases xs with
        | nil =>
          simp only [hcase, Option.getD_some]
          rw [show explodeVals (Value.list []) = [Value.none] from rfl]
          simp only [List.map_cons, List.map_nil, Function.comp, Row.getV_setV_self]
          rw [show freqEntriesOf p.2 = [Value.none] from by
            simp [freqEntriesOf, hcase]]
        | cons y ys =>
          simp only [hcase, Option.getD_some]
          rw [show explodeVals (Value.list (y :: ys)) = y :: ys from rfl]
          rw [show freqEntriesOf p.2 = y :: ys from by
            simp [freqEntriesOf, hcase]]
          refine (map_congr_mem ?_).trans (List.map_id (y :: ys))
          intro x _
          simp only [Function.comp, Row.getV_setV_self]
          rfl
      | none => simp [freqFieldOk, hcase] at hf
      | bool b => simp [freqFieldOk, hcase] at hf
      | num n => simp [freqFieldOk, hcase] at hf
      | str s2 => simp [freqFieldOk, hcase] at hf
      | time t => simp [freqFieldOk, hcase] at hf
      | obj fs => simp [freqFieldOk, hcase] at hf
  have hentries : ∀ e ∈ freqEntries records,
      timeFieldOk e "min_time" = true ∧ timeFieldOk e "max_time" = true := by
    intro e he
    obtain ⟨r, hr, her⟩ := mem_flatMap_iff.mp he
    have hf := hfreq r hr
    cases hcase : r.lookup "frequencies" with
    | none => simp [freqFieldOk, hcase] at hf
    | some v =>
      cases v with
      | list xs =>
        simp only [freqFieldOk, hcase, List.all_eq_true] at hf
        cases xs with
        | nil =>
          rw [show freqEntriesOf r = [Value.none] from by simp [freqEntriesOf, hcase]] at her
          rcases List.mem_singleton.mp her with rfl
          exact ⟨rfl, rfl⟩
        | cons y ys =>
          rw [show freqEntriesOf r = y :: ys from by simp [freqEntriesOf, hcase]] at her
          have hb := hf e her
          simp only [Bool.and_eq_true] at hb
          exact hb
      | none => simp [freqFieldOk, hcase] at hf
      | bool b => simp [freqFieldOk, hcase] at hf
      | num n => simp [freqFieldOk, hcase] at hf
      | str s2 => simp [freqFieldOk, hcase] at hf
      | time t => simp [freqFieldOk, hcase] at hf
      | obj fs => simp [freqFieldOk, hcase] at hf
  have hfne : "frequency" ∉ df1.cols := by
    rw [hc1]
    exact fun hc => (hcolsAll _ hc).2 rfl
  have hmnne0 : "min_time" ∉ df1.cols := by
    rw [hc1]
    intro hc
    have := (hcolsAll _ hc).1
    rw [show timeLike "min_time" = true from by decide] at this
    cases this
  have hmxne0 : "max_time" ∉ df1.cols := by
    rw [hc1]
    intro hc
    have := (hcolsAll _ hc).1
    rw [show timeLike "max_time" = true from by decide] at this
    cases this
  simp only [CatalogIndexesData.to_dataframe, hE]
  set A := df1.assignCol "frequency" (expand_df "frequency" (df1.colVals "frequencies"))
    with hA
  set B := A.assignCol "min_time" (expand_df "min_time" (A.colVals "frequencies")) with hB
  set C := B.assignCol "max_time" (expand_df "max_time" (B.colVals "frequencies")) with hC
  have hv1 : expand_df "frequency" (df1.colVals "frequencies") =
      df1.rows.map (fun ir =>
        ((Row.getV ir.2 "frequencies").lookup "frequency").getD Value.none) := by
    simp only [expand_df, DF.colVals, List.map_map]
    rfl
  have hAfreqs : A.colVals "frequencies" = freqEntries records := by
    rw [hA, hv1, colVals_assignCol_map_ne _ (show "frequencies" ≠ "frequency" by decide),
      hfreqcol]
  have hAfreqv : A.colVals "frequency" = (freqEntries records).map (fun e =>
      (e.lookup "frequency").getD Value.none) := by
    rw [hA, hv1, colVals_assignCol_map_self, ← hv1]
    rw [show expand_df "frequency" (df1.colVals "frequencies") =
      (df1.colVals "frequencies").map (fun e =>
        (e.lookup "frequency").getD Value.none) from rfl]
    rw [hfreqcol]
  have hAcols : A.cols = df1.cols ++ ["frequency"] := by
    rw [hA]
    exact assignCol_cols_notMem hfne _
  have hv2 : expand_df "min_time" (A.colVals "frequencies") =
      A.rows.map (fun ir =>
        ((Row.getV ir.2 "frequencies").lookup "min_time").getD Value.none) := by
    simp only [expand_df, DF.colVals, List.map_map]
    rfl
  have hmnneA : "min_time" ∉ A.cols := by
    rw [hAcols]
    intro hcm
    rcases List.mem_append.mp hcm with hcm | hcm
    · exact hmnne0 hcm
    · exact absurd (List.mem_singleton.mp hcm) (by decide)
  have hBfreqs : B.colVals "frequencies" = freqEntries records := by
    rw [hB, hv2, colVals_assignCol_map_ne _ (show "frequencies" ≠ "min_time" by decide),
      hAfreqs]
  have hBfreqv : B.colVals "frequency" = (freqEntries records).map (fun e =>
      (e.lookup "frequency").getD Value.none) := by
    rw [hB, hv2, colVals_assignCol_map_ne _ (show "frequency" ≠ "min_time" by decide),
      hAfreqv]
  have hBmin : B.colVals "min_time" = (freqEntries records).map (fun e =>
      (e.lookup "min_time").getD Value.none) := by
    rw [hB, hv2, colVals_assignCol_map_self, ← hv2]
    rw [show expand_df "min_time" (A.colVals "frequencies") =
      (A.colVals "frequencies").map (fun e =>
        (e.lookup "min_time").getD Value.none) from rfl]
    rw [hAfreqs]
  have hBcols : B.cols = (df1.cols ++ ["frequency"]) ++ ["min_time"] := by
    rw [hB]
    rw [assignCol_cols_notMem hmnneA]
    rw [hAcols]
  have hv3 : expand_df "max_time" (B.colVals "frequencies") =
      B.rows.map (fun ir =>
        ((Row.getV ir.2 "frequencies").lookup "max_time").getD Value.none) := by
    simp only [expand_df, DF.colVals, List.map_map]
    rfl
  have hmxneB : "max_time" ∉ B.cols := by
    rw [hBcols]
    intro hcm
    rcases List.mem_append.mp hcm with hcm | hcm
    · rcases List.mem_append.mp hcm with hcm | hcm
      · exact hmxne0 hcm
      · exact absurd (List.mem_singleton.mp hcm) (by decide)
    · exact absurd (List.mem_singleton.mp hcm) (by decide)
  have hCfreqv : C.colVals "frequency" = (freqEntries records).map (fun e =>
      (e.lookup "frequency").getD Value.none) := by
    rw [hC, hv3, colVals_assignCol_map_ne _ (show "frequency" ≠ "max_time" by decide),
      hBfreqv]
  have hCmin : C.colVals "min_time" = (freqEntries records).map (fun e =>
      (e.lookup "min_time").getD Value.none) := by
    rw [hC, hv3, colVals_assignCol_map_ne _ (show "min_time" ≠ "max_time" by decide),
      hBmin]
  have hCmax : C.colVals "max_time" = (freqEntries records).map (fun e =>
      (e.lookup "max_time").getD Value.none) := by
    rw [hC, hv3, colVals_assignCol_map_self, ← hv3]
    rw [show expand_df "max_time" (B.colVals "frequencies") =
      (B.colVals "frequencies").map (fun e =>
        (e.lookup "max_time").getD Value.none) from rfl]
    rw [hBfreqs]
  have hCcols : C.cols = ((df1.cols ++ ["frequency"]) ++ ["min_time"]) ++ ["max_time"] := by
    rw [hC]
    rw [assignCol_cols_notMem hmxneB]
    rw [hBcols]
  have hmem5 : "frequencies" ∈ (C.resetIndex).cols := by
    rw [resetIndex_cols, hCcols]
    refine List.mem_append_left _ ?_
    refine List.mem_append_left _ ?_
    refine List.mem_append_left _ ?_
    rw [hc1]
    exact hmem
  simp only [dropStrict_ok hmem5]
  have hDcols : ((C.resetIndex).dropIgnore "frequencies").cols =
      ((removeAll df1.cols "frequencies" ++ ["frequency"]) ++ ["min_time"]) ++
        ["max_time"] := by
    rw [cols_dropIgnore, resetIndex_cols, hCcols]
    rw [removeAll_append, removeAll_append, removeAll_append]
    rw [show removeAll ["frequency"] "frequencies" = ["frequency"] from by decide]
    rw [show removeAll ["min_time"] "frequencies" = ["min_time"] from by decide]
    rw [show removeAll ["max_time"] "frequencies" = ["max_time"] from by decide]
  have hfilter : (((C.resetIndex).dropIgnore "frequencies").cols).filter timeLike =
      ["min_time", "max_time"] := by
    rw [hDcols]
    rw [List.filter_append, List.filter_append, List.filter_append]
    rw [filter_eq_nil_of_false (fun k hk => by
      obtain ⟨hk1, _⟩ := mem_removeAll.mp hk
      rw [hc1] at hk1
      exact (hcolsAll _ hk1).1)]
    decide
  have hDmin : ((C.resetIndex).dropIgnore "frequencies").colVals "min_time" =
      (freqEntries records).map (fun e => (e.lookup "min_time").getD Value.none) := by
    rw [colVals_dropIgnore_ne _ (show "min_time" ≠ "frequencies" by decide),
      colVals_resetIndex, hCmin]
  have hDmax : ((C.resetIndex).dropIgnore "frequencies").colVals "max_time" =
      (freqEntries records).map (fun e => (e.lookup "max_time").getD Value.none) := by
    rw [colVals_dropIgnore_ne _ (show "max_time" ≠ "frequencies" by decide),
      colVals_resetIndex, hCmax]
  have hDfreqv : ((C.resetIndex).dropIgnore "frequencies").colVals "frequency" =
      (freqEntries records).map (fun e => (e.lookup "frequency").getD Value.none) := by
    rw [colVals_dropIgnore_ne _ (show "frequency" ≠ "frequencies" by decide),
      colVals_resetIndex, hCfreqv]
  have hparse : ∀ (k : String) (vs : List Value),
      vs = (freqEntries records).map (fun e => (e.lookup k).getD Value.none) →
      (∀ e ∈ freqEntries records, timeFieldOk e k = true) →
      ∀ v ∈ vs, ∀ s, v = Value.str s → (isoparse s).isSome = true := by
    intro k vs hvs hall v hv s hs
    rw [hvs] at hv
    obtain ⟨e, he, rfl⟩ := List.mem_map.mp hv
    have hok := hall e he
    cases heq : e.lookup k with
    | none =>
      rw [heq] at hs
      cases hs
    | some w =>
      rw [heq] at hs
      simp only [Option.getD_some] at hs
      subst hs
      simp only [timeFieldOk, heq] at hok
      exact hok
  obtain ⟨D2, hcv, hc2cols, hlen2, hmin2, hmax2, hother2⟩ :=
    convert_two_spec ((C.resetIndex).dropIgnore "frequencies") hfilter
      (hparse "min_time" _ hDmin (fun e he => (hentries e he).1))
      (hparse "max_time" _ hDmax (fun e he => (hentries e he).2))
  refine ⟨D2, by rw [hcv], ?_, ?_, ?_, ?_, ?_⟩
  · rw [hlen2, ← colVals_length _ "min_time", hDmin, List.length_map]
  · rw [hother2 "frequency" (by decide) (by decide), hDfreqv]
  · rw [hmin2, hDmin, List.map_map]
    refine map_congr_mem ?_
    intro e _
    simp only [Function.comp, parsedTime]
    cases heq : e.lookup "min_time" with
    | none => rfl
    | some w =>
      cases w with
      | str s => rfl
      | none => rfl
      | bool b => rfl
      | num n => rfl
      | time t => rfl
      | list xs => rfl
      | obj fs => rfl
  · rw [hmax2, hDmax, List.map_map]
    refine map_congr_mem ?_
    intro e _
    simp only [Function.comp, parsedTime]
    cases heq : e.lookup "max_time" with
    | none => rfl
    | some w =>
      cases w with
      | str s => rfl
      | none => rfl
      | bool b => rfl
      | num n => rfl
      | time t => rfl
      | list xs => rfl
      | obj fs => rfl
  · rw [hc2cols, hDcols]
    intro hk
    rcases List.mem_append.mp hk with hk | hk
    · rcases List.mem_append.mp hk with hk | hk
      · rcases List.mem_append.mp hk with hk | hk
        · exact (mem_removeAll.mp hk).2 rfl
        · exact absurd (List.mem_singleton.mp hk) (by decide)
      · exact absurd (List.mem_singleton.mp hk) (by decide)
    · exact absurd (List.mem_singleton.mp hk) (by decide)

/-- Counterexample to claim C1 as stated.  On the two records
  [{"frequencies": [{"min_time": "2020-01-01"}]}, {"frequencies": []}]
the claim predicts one output row per (record, frequency-entry) pair,
i.e. exactly 1 row, with the min_time cell equal to the entry field
"2020-01-01"; the code produces 2 rows (pandas explode keeps one
all-absent row for the empty list) and stores the parsed timestamp,
not the string field, in the min_time cell. -/
theorem claim_C1_counterexample :
    rowCountOf (CatalogIndexesData.to_dataframe
      [Value.obj [("frequencies",
          Value.list [Value.obj [("min_time", Value.str "2020-01-01")]])],
       Value.obj [("frequencies", Value.list [])]]) = some 2 ∧
    claimedPairCount
      [Value.obj [("frequencies",
          Value.list [Value.obj [("min_time", Value.str "2020-01-01")]])],
       Value.obj [("frequencies", Value.list [])]] = 1 ∧
    ¬ ((2 : Nat) = 1) ∧
    (match CatalogIndexesData.to_dataframe
      [Value.obj [("frequencies",
          Value.list [Value.obj [("min_time", Value.str "2020-01-01")]])],
       Value.obj [("frequencies", Value.list [])]] with
     | Except.ok df => df.colVals "min_time"
     | Except.error _ => []) =
      [Value.time ⟨2020, 1, 1, 0, 0, 0⟩, Value.none] ∧
    Value.time ⟨2020, 1, 1, 0, 0, 0⟩ ≠ Value.str "2020-01-01" :=
  ⟨rfl, rfl, by decide, rfl, fun h => Value.noConfusion h⟩

/-- Witness for the amended claim C1 on a concrete index record with
two frequency entries, one of which has no time fields. -/
theorem claim_C1_indexes_flatten_witness :
    ∃ df, CatalogIndexesData.to_dataframe
        [Value.obj [("index", Value.str "CMBI10"),
          ("frequencies", Value.list
            [Value.obj [("frequency", Value.str "1d"),
              ("min_time", Value.str "2020-01-01"),
              ("max_time", Value.str "2021-01-01T00:00:00Z")],
             Value.obj [("frequency", Value.str "1h")]])]] = Except.ok df ∧
      df.rows.length = (freqEntries
        [Value.obj [("index", Value.str "CMBI10"),
          ("frequencies", Value.list
            [Value.obj [("frequency", Value.str "1d"),
              ("min_time", Value.str "2020-01-01"),
              ("max_time", Value.str "2021-01-01T00:00:00Z")],
             Value.obj [("frequency", Value.str "1h")]])]]).length ∧
      df.colVals "frequency" = (freqEntries
        [Value.obj [("index", Value.str "CMBI10"),
          ("frequencies", Value.list
            [Value.obj [("frequency", Value.str "1d"),
              ("min_time", Value.str "2020-01-01"),
              ("max_time", Value.str "2021-01-01T00:00:00Z")],
             Value.obj [("frequency", Value.str "1h")]])]]).map (fun e =>
        (e.lookup "frequency").getD Value.none) ∧
      df.colVals "min_time" = (freqEntries
        [Value.obj [("index", Value.str "CMBI10"),
          ("frequencies", Value.list
            [Value.obj [("frequency", Value.str "1d"),
              ("min_time", Value.str "2020-01-01"),
              ("max_time", Value.str "2021-01-01T00:00:00Z")],
             Value.obj [("frequency", Value.str "1h")]])]]).map (fun e =>
        parsedTime e "min_time") ∧
      df.colVals "max_time" = (freqEntries
        [Value.obj [("index", Value.str "CMBI10"),
          ("frequencies", Value.list
            [Value.obj [("frequency", Value.str "1d"),
              ("min_time", Value.str "2020-01-01"),
              ("max_time", Value.str "2021-01-01T00:00:00Z")],
             Value.obj [("frequency", Value.str "1h")]])]]).map (fun e =>
        parsedTime e "max_time") ∧
      "frequencies" ∉ df.cols :=
  claim_C1_indexes_flatten
    [Value.obj [("index", Value.str "CMBI10"),
      ("frequencies", Value.list
        [Value.obj [("frequency", Value.str "1d"),
          ("min_time", Value.str "2020-01-01"),
          ("max_time", Value.str "2021-01-01T00:00:00Z")],
         Value.obj [("frequency", Value.str "1h")]])]]
    (by decide) (by decide) (by decide)
